import Mathlib

/-!
Shallow embedding of the conversion orchestration engine of the
`av1-to-hevc` repository (files `src/config.py`, `src/converter.py`),
together with theorems settling the frozen claims about it.

The embedding follows the source:
* the static registry `CODEC_ENCODERS` and the functions
  `Config.get_encoder_config`, `Config.get_conversion_params`,
  `Config._get_hevc_params` (and siblings), `Config._detect_hdr_params`,
  `Config._get_hdr_params` from `src/config.py`;
* `VideoConverter._parse_progress`, `VideoConverter._format_time`,
  `VideoConverter.convert_video` and `BatchConverter.convert_directory`
  from `src/converter.py`.

External effects (ffprobe results, ffmpeg run verdicts, filesystem
queries) are supplied as explicit environment data; the functions below
mirror the Python control flow on top of those inputs.  Python string
truthiness (where the code relies on it, e.g. `quality if quality else
...`) is modelled explicitly.
-/

/-! ## Generic string-scanning infrastructure

Python's `re.search` with the concrete patterns used in
`_parse_progress` is modelled by `scanFor`: try to match at every
position from the left, where each pattern starts with a fixed literal
key and continues with a pattern-specific matcher `f` applied to the
characters after the key.  If `f` fails at some occurrence of the key,
scanning continues at the next character, exactly like backtracking
`re.search`. -/

def isPrefixB : List Char → List Char → Bool
  | [], _ => true
  | _ :: _, [] => false
  | a :: as, b :: bs => a == b && isPrefixB as bs

def scanFor (key : List Char) (f : List Char → Option α) : List Char → Option α
  | [] => none
  | c :: cs =>
    match (if isPrefixB key (c :: cs) then f (List.drop key.length (c :: cs)) else none) with
    | some a => some a
    | none => scanFor key f cs

/-- Python's substring test `pat in s` (for nonempty `pat`). -/
def strContainsL (pat cs : List Char) : Bool :=
  (scanFor pat (fun _ => some ()) cs).isSome

def strContains (s pat : String) : Bool :=
  strContainsL pat.data s.data

/-- Character class `\s` of Python `re` (ASCII range, as produced by ffmpeg). -/
def isWs (c : Char) : Bool :=
  c == ' ' || c == '\t' || c == '\n' || c == '\r' || c == '\x0b' || c == '\x0c'

/-- Character class `[\d.]`. -/
def isDigDot (c : Char) : Bool :=
  c.isDigit || c == '.'

/-- Character class `\w` (ASCII range, as produced by ffmpeg). -/
def isWordChar (c : Char) : Bool :=
  c.isAlphanum || c == '_'

/-- Numeric value of a decimal digit character. -/
def dv (c : Char) : ℕ := c.toNat - 48

/-- Value of a string of decimal digits (Python `int(...)` on a `\d+` match). -/
def digitsToNat (ds : List Char) : ℕ :=
  ds.foldl (fun a c => 10 * a + dv c) 0

/-- Python `float(...)` applied to a `[\d.]+` token: at most one dot and
at least one digit, otherwise `ValueError` (modelled as `none`). -/
def pyFloat (cs : List Char) : Option ℚ :=
  match (cs.filter (fun c => c == '.')).length with
  | 0 => if cs.isEmpty then none else some (digitsToNat cs)
  | 1 =>
    let ip := cs.takeWhile (fun c => !(c == '.'))
    let fp := (cs.dropWhile (fun c => !(c == '.'))).tail
    if ip.length + fp.length = 0 then none
    else some ((digitsToNat ip : ℚ) + (digitsToNat fp : ℚ) / (10 : ℚ) ^ fp.length)
  | _ => none

/-- Descending list `[n, n-1, ..., 0]`, used to model greedy (longest-first)
backtracking of `+`/`*` over a character run. -/
def downFrom (n : ℕ) : List ℕ :=
  (List.range (n + 1)).reverse

/-! ## Registry data from `src/config.py` (`CODEC_ENCODERS`)

Parameter sets are association lists from parameter name to value; the
integer values of the Python dicts are stored as their decimal strings,
which is what every use site produces via `str(...)`. -/

def hevcNvidiaCfg : List (String × String) :=
  [("encoder", "hevc_nvenc"), ("preset", "p4"), ("rc", "vbr"), ("cq", "23"),
   ("b_ref_mode", "middle"), ("spatial_aq", "1"), ("temporal_aq", "1")]

def hevcAmdCfg : List (String × String) :=
  [("encoder", "hevc_amf"), ("quality", "balanced"), ("rc", "cqp"),
   ("qp_i", "23"), ("qp_p", "23"), ("qp_b", "23")]

def hevcIntelCfg : List (String × String) :=
  [("encoder", "hevc_qsv"), ("preset", "medium"), ("global_quality", "23"),
   ("look_ahead", "1")]

def x265ParamsStr : String :=
  "hdr-opt=1:repeat-headers=1:colorprim=bt2020:transfer=smpte2084:colormatrix=bt2020nc"

def hevcCpuCfg : List (String × String) :=
  [("encoder", "libx265"), ("crf", "23"), ("preset", "medium"),
   ("x265_params", x265ParamsStr)]

def h264NvidiaCfg : List (String × String) :=
  [("encoder", "h264_nvenc"), ("preset", "p4"), ("rc", "vbr"), ("cq", "23"),
   ("b_ref_mode", "middle"), ("spatial_aq", "1"), ("temporal_aq", "1")]

def h264AmdCfg : List (String × String) :=
  [("encoder", "h264_amf"), ("quality", "balanced"), ("rc", "cqp"),
   ("qp_i", "23"), ("qp_p", "23"), ("qp_b", "23")]

def h264IntelCfg : List (String × String) :=
  [("encoder", "h264_qsv"), ("preset", "medium"), ("global_quality", "23"),
   ("look_ahead", "1")]

def h264CpuCfg : List (String × String) :=
  [("encoder", "libx264"), ("crf", "23"), ("preset", "medium")]

def av1NvidiaCfg : List (String × String) :=
  [("encoder", "av1_nvenc"), ("preset", "p4"), ("rc", "vbr"), ("cq", "30")]

def av1IntelCfg : List (String × String) :=
  [("encoder", "av1_qsv"), ("preset", "medium"), ("global_quality", "30")]

def av1CpuCfg : List (String × String) :=
  [("encoder", "libaom-av1"), ("crf", "30"), ("cpu-used", "4")]

def vp9CpuCfg : List (String × String) :=
  [("encoder", "libvpx-vp9"), ("crf", "30"), ("b:v", "0"), ("cpu-used", "4")]

def codecEncoders : List (String × List (String × List (String × String))) :=
  [("hevc", [("nvidia", hevcNvidiaCfg), ("amd", hevcAmdCfg),
             ("intel", hevcIntelCfg), ("cpu", hevcCpuCfg)]),
   ("h264", [("nvidia", h264NvidiaCfg), ("amd", h264AmdCfg),
             ("intel", h264IntelCfg), ("cpu", h264CpuCfg)]),
   ("av1", [("nvidia", av1NvidiaCfg), ("intel", av1IntelCfg), ("cpu", av1CpuCfg)]),
   ("vp9", [("cpu", vp9CpuCfg)])]

/-- Backends with a registered parameter set for a codec. -/
def registeredBackends (codec : String) : List String :=
  ((List.lookup codec codecEncoders).getD []).map Prod.fst

/-- Dictionary access `config[key]`; every reachable access in the source
hits a present key, so the `KeyError` case is mapped to `""`. -/
def cfgGet (config : List (String × String)) (key : String) : String :=
  (List.lookup key config).getD ""

/-- Process-wide detection state of a `Config` instance: `self.gpu_type`
(`None` or a vendor string) and `self.available_encoders` (per-codec list
of available backends; `none` models an absent dictionary key, read with
`.get(codec, ["cpu"])`). -/
structure ConfigState where
  gpuType : Option String
  availableEncoders : String → Option (List String)

/-- The encoder-type selection of `Config.get_encoder_config`
(src/config.py lines 222-228): `if prefer_gpu and self.gpu_type and
self.gpu_type in available: ... else "cpu"`. -/
def selectBackendType (st : ConfigState) (outputCodec : String) (preferGpu : Bool) : String :=
  let avail := (st.availableEncoders outputCodec).getD ["cpu"]
  match st.gpuType with
  | some g => if preferGpu && g != "" && avail.contains g then g else "cpu"
  | none => "cpu"

/-- `Config.get_encoder_config` (src/config.py lines 208-238).  `none`
models the `ValueError` raised for an unregistered codec; the final
`none` models the `KeyError` that would occur if a registered codec had
no `"cpu"` parameter set (no such codec exists in the registry). -/
def getEncoderConfig (st : ConfigState) (outputCodec : String) (preferGpu : Bool) :
    Option (String × List (String × String)) :=
  match List.lookup outputCodec codecEncoders with
  | none => none
  | some tbl =>
    let encoderType := selectBackendType st outputCodec preferGpu
    match List.lookup encoderType tbl with
    | some config => some (encoderType, config)
    | none =>
      match List.lookup "cpu" tbl with
      | some config => some ("cpu", config)
      | none => none

/-- Python `str(quality if quality else default)` where `quality` is an
optional integer and `default` an integer already stored as its decimal
string: `quality = 0` is falsy and falls back to the default. -/
def pyQualityOr (quality : Option ℤ) (dflt : String) : String :=
  match quality with
  | some q => if q = 0 then dflt else toString q
  | none => dflt

/-- `Config._get_hevc_params` (src/config.py lines 360-388). -/
def getHevcParams (encoderType : String) (config : List (String × String))
    (quality : Option ℤ) : List String :=
  if encoderType = "nvidia" then
    ["-preset", cfgGet config "preset", "-rc", cfgGet config "rc",
     "-cq", pyQualityOr quality (cfgGet config "cq"),
     "-b_ref_mode", cfgGet config "b_ref_mode",
     "-spatial_aq", cfgGet config "spatial_aq",
     "-temporal_aq", cfgGet config "temporal_aq"]
  else if encoderType = "amd" then
    let qpVal := pyQualityOr quality (cfgGet config "qp_i")
    ["-quality", cfgGet config "quality", "-rc", cfgGet config "rc",
     "-qp_i", qpVal, "-qp_p", qpVal, "-qp_b", qpVal]
  else if encoderType = "intel" then
    ["-preset", cfgGet config "preset",
     "-global_quality", pyQualityOr quality (cfgGet config "global_quality"),
     "-look_ahead", cfgGet config "look_ahead"]
  else
    ["-preset", cfgGet config "preset",
     "-crf", pyQualityOr quality (cfgGet config "crf")]
    ++ (if (List.lookup "x265_params" config).isSome then
          ["-x265-params", cfgGet config "x265_params"]
        else [])

/-- `Config._get_h264_params` (src/config.py lines 390-416). -/
def getH264Params (encoderType : String) (config : List (String × String))
    (quality : Option ℤ) : List String :=
  if encoderType = "nvidia" then
    ["-preset", cfgGet config "preset", "-rc", cfgGet config "rc",
     "-cq", pyQualityOr quality (cfgGet config "cq"),
     "-b_ref_mode", cfgGet config "b_ref_mode",
     "-spatial_aq", cfgGet config "spatial_aq",
     "-temporal_aq", cfgGet config "temporal_aq"]
  else if encoderType = "amd" then
    let qpVal := pyQualityOr quality (cfgGet config "qp_i")
    ["-quality", cfgGet config "quality", "-rc", cfgGet config "rc",
     "-qp_i", qpVal, "-qp_p", qpVal, "-qp_b", qpVal]
  else if encoderType = "intel" then
    ["-preset", cfgGet config "preset",
     "-global_quality", pyQualityOr quality (cfgGet config "global_quality"),
     "-look_ahead", cfgGet config "look_ahead"]
  else
    ["-preset", cfgGet config "preset",
     "-crf", pyQualityOr quality (cfgGet config "crf")]

/-- `Config._get_av1_params` (src/config.py lines 418-433). -/
def getAv1Params (encoderType : String) (config : List (String × String))
    (quality : Option ℤ) : List String :=
  if encoderType = "nvidia" then
    ["-preset", cfgGet config "preset", "-rc", cfgGet config "rc",
     "-cq", pyQualityOr quality (cfgGet config "cq")]
  else if encoderType = "intel" then
    ["-preset", cfgGet config "preset",
     "-global_quality", pyQualityOr quality (cfgGet config "global_quality")]
  else
    ["-crf", pyQualityOr quality (cfgGet config "crf"),
     "-cpu-used", cfgGet config "cpu-used"]

/-- `Config._get_vp9_params` (src/config.py lines 435-441). -/
def getVp9Params (config : List (String × String)) (quality : Option ℤ) : List String :=
  ["-crf", pyQualityOr quality (cfgGet config "crf"),
   "-b:v", cfgGet config "b:v",
   "-cpu-used", cfgGet config "cpu-used"]

/-! ## HDR parameter detection (`Config._detect_hdr_params`, `Config._get_hdr_params`) -/

/-- One entry of the ffprobe `streams` array, restricted to the keys the
code reads.  `none` models an absent JSON key (`stream.get(...)` →
`None`). -/
structure ProbeStream where
  codecType : String
  colorPrimaries : Option String
  colorTransfer : Option String
  colorSpace : Option String
  colorRange : Option String
deriving DecidableEq, Repr

/-- ASCII lower-casing of Python `str.lower()` (ffprobe color values are
ASCII). -/
def charLower (c : Char) : Char :=
  if 'A' ≤ c ∧ c ≤ 'Z' then Char.ofNat (c.toNat + 32) else c

def strToLower (s : String) : String :=
  ⟨s.data.map charLower⟩

/-- Python `v or dflt` on an optional string: `None` and `""` are falsy. -/
def pyOr (v : Option String) (dflt : String) : String :=
  match v with
  | some s => if s = "" then dflt else s
  | none => dflt

/-- The `for stream in data.get('streams', [])` loop returning at the
first stream whose `codec_type` is `"video"`. -/
def firstVideoStream : List ProbeStream → Option ProbeStream
  | [] => none
  | s :: rest => if s.codecType = "video" then some s else firstVideoStream rest

structure HdrColorParams where
  colorPrimaries : String
  colorTrc : String
  colorspace : String
  colorRange : String
deriving DecidableEq, Repr

/-- The canonical HDR10 parameter set emitted by `_detect_hdr_params`. -/
def hdr10Canonical : HdrColorParams :=
  ⟨"bt2020", "smpte2084", "bt2020nc", "tv"⟩

/-- The HLG parameter set emitted by `_detect_hdr_params`. -/
def hlgParams : HdrColorParams :=
  ⟨"bt2020", "arib-std-b67", "bt2020nc", "tv"⟩

/-- `Config._detect_hdr_params` (src/config.py lines 240-306).  The probe
input is `none` when ffprobe fails (non-zero exit, timeout, JSON error),
in which case the except/fall-through path returns the default HDR10
parameters; otherwise it is the list of probed streams. -/
def detectHdrParams (probe : Option (List ProbeStream)) : HdrColorParams :=
  match probe with
  | none => hdr10Canonical
  | some streams =>
    match firstVideoStream streams with
    | none => hdr10Canonical
    | some s =>
      let detectedTrc := pyOr s.colorTransfer ""
      let low := strToLower detectedTrc
      let isHlg := strContains low "arib-std-b67" || strContains low "hlg"
      let isHdr10 := strContains low "smpte2084" || strContains low "pq"
      if isHlg then hlgParams
      else if isHdr10 then hdr10Canonical
      else ⟨pyOr s.colorPrimaries "bt2020", pyOr s.colorTransfer "smpte2084",
            pyOr s.colorSpace "bt2020nc", pyOr s.colorRange "tv"⟩

/-- `Config._get_hdr_params` (src/config.py lines 443-483).  `inputGiven`
is the truthiness of the `input_path` argument; `probe` is what ffprobe
reports for it. -/
def getHdrParams (encoderType : String) (inputGiven : Bool)
    (probe : Option (List ProbeStream)) : List String :=
  (if encoderType != "cpu" && inputGiven then
    let hdr := detectHdrParams probe
    let hdr := if encoderType = "nvidia" && hdr.colorTrc = "arib-std-b67" then
        hdr10Canonical
      else hdr
    ["-color_primaries", hdr.colorPrimaries, "-color_trc", hdr.colorTrc,
     "-colorspace", hdr.colorspace, "-color_range", hdr.colorRange]
  else
    ["-color_primaries", "copy", "-color_trc", "copy",
     "-colorspace", "copy", "-color_range", "copy"])
  ++ ["-map_metadata", "0"]
  ++ (if encoderType = "cpu" then ["-movflags", "+write_colr"] else [])

/-- `Config.get_conversion_params` (src/config.py lines 308-358). -/
def getConversionParams (st : ConfigState) (outputCodec : String) (preserveHdr : Bool)
    (quality : Option ℤ) (inputGiven : Bool) (probe : Option (List ProbeStream))
    (preferGpu : Bool) : Option (List String) :=
  match getEncoderConfig st outputCodec preferGpu with
  | none => none
  | some (encoderType, config) =>
    let params := ["-c:v", cfgGet config "encoder"]
    let params := params ++
      (if outputCodec = "hevc" then getHevcParams encoderType config quality
       else if outputCodec = "h264" then getH264Params encoderType config quality
       else if outputCodec = "av1" then getAv1Params encoderType config quality
       else if outputCodec = "vp9" then getVp9Params config quality
       else [])
    let params := params ++
      (if preserveHdr && (outputCodec = "hevc" || outputCodec = "av1") then
        getHdrParams encoderType inputGiven probe
       else [])
    let params := params ++ ["-c:a", "copy"]
    let params := params ++
      (if encoderType != "cpu" then ["-map", "0:v:0", "-map", "0:a?"]
       else ["-c:s", "copy", "-map", "0"])
    some params

/-! ## Progress parsing (`VideoConverter._parse_progress`, `_format_time`) -/

/-- The `ConversionProgress` dataclass (src/converter.py lines 18-27),
with media quantities as exact rationals. -/
structure ConversionProgress where
  frame : ℕ := 0
  fps : ℚ := 0
  bitrate : String := ""
  size : String := ""
  time : String := ""
  speed : String := ""
  percentage : ℚ := 0
deriving DecidableEq, Repr

/-- Matcher for the tail of `r'frame=\s*(\d+)'`: skip whitespace, then a
nonempty digit run, converted by `int(...)`. -/
def frameAt (cs : List Char) : Option ℕ :=
  let rest := cs.dropWhile isWs
  let ds := rest.takeWhile Char.isDigit
  if ds.isEmpty then none else some (digitsToNat ds)

/-- Matcher for the tail of `r'fps=\s*([\d.]+)'` (and the fps-like group of
other patterns): skip whitespace, then a nonempty `[\d.]+` run, returned
as the matched token. -/
def numTokAt (cs : List Char) : Option (List Char) :=
  let rest := cs.dropWhile isWs
  let run := rest.takeWhile isDigDot
  if run.isEmpty then none else some run

/-- Matcher for the tail of `r'bitrate=\s*([\d.]+\w*bits/s)'` and
`r'size=\s*([\d.]+\w*B)'` (with `unit` the trailing literal): skip
whitespace, then `[\d.]+` and `\w*` with greedy longest-first
backtracking, then the literal unit; returns the matched group. -/
def unitTokAt (unit : List Char) (cs : List Char) : Option (List Char) :=
  let rest := cs.dropWhile isWs
  let run := rest.takeWhile isDigDot
  if run.isEmpty then none
  else
    (downFrom run.length).findSome? fun k =>
      if k = 0 then none
      else
        let after := rest.drop k
        let wrun := after.takeWhile isWordChar
        (downFrom wrun.length).findSome? fun i =>
          if isPrefixB unit (after.drop i) then
            some (rest.take (k + i) ++ unit)
          else none

/-- Matcher for the tail of `r'time=(\d{2}):(\d{2}):(\d{2})\.(\d{2})'`:
four two-digit groups, returned as numbers. -/
def timeAt : List Char → Option (ℕ × ℕ × ℕ × ℕ)
  | a1 :: a2 :: p1 :: b1 :: b2 :: p2 :: c1 :: c2 :: p3 :: d1 :: d2 :: _ =>
    if a1.isDigit && a2.isDigit && p1 == ':' && b1.isDigit && b2.isDigit &&
       p2 == ':' && c1.isDigit && c2.isDigit && p3 == '.' && d1.isDigit && d2.isDigit then
      some (10 * dv a1 + dv a2, 10 * dv b1 + dv b2, 10 * dv c1 + dv c2, 10 * dv d1 + dv d2)
    else none
  | _ => none

/-- Matcher for the tail of `r'speed=\s*([\d.]+x)'`: skip whitespace, a
nonempty `[\d.]+` run, then the literal `x`; the group includes the `x`.
(Shrinking the greedy run can never expose an `x`, so no further
backtracking arises.) -/
def speedAt (cs : List Char) : Option (List Char) :=
  let rest := cs.dropWhile isWs
  let run := rest.takeWhile isDigDot
  if run.isEmpty then none
  else
    match rest.drop run.length with
    | 'x' :: _ => some (run ++ ['x'])
    | _ => none

def frameKey : List Char := ['f', 'r', 'a', 'm', 'e', '=']
def fpsKey : List Char := ['f', 'p', 's', '=']
def bitrateKey : List Char := ['b', 'i', 't', 'r', 'a', 't', 'e', '=']
def sizeKey : List Char := ['s', 'i', 'z', 'e', '=']
def timeKey : List Char := ['t', 'i', 'm', 'e', '=']
def speedKey : List Char := ['s', 'p', 'e', 'e', 'd', '=']
def bitsUnit : List Char := ['b', 'i', 't', 's', '/', 's']

def scanFrame (cs : List Char) : Option ℕ := scanFor frameKey frameAt cs
def scanFps (cs : List Char) : Option (List Char) := scanFor fpsKey numTokAt cs
def scanBitrate (cs : List Char) : Option (List Char) :=
  scanFor bitrateKey (unitTokAt bitsUnit) cs
def scanSize (cs : List Char) : Option (List Char) :=
  scanFor sizeKey (unitTokAt ['B']) cs
def scanTime (cs : List Char) : Option (ℕ × ℕ × ℕ × ℕ) := scanFor timeKey timeAt cs
def scanSpeed (cs : List Char) : Option (List Char) := scanFor speedKey speedAt cs

/-- Python float modulo `a % b` (for `b > 0`): `a - b * floor(a / b)`. -/
def pyMod (a b : ℚ) : ℚ := a - b * ⌊a / b⌋

/-- Zero-padding of Python `f"{n:02d}"`. -/
def pad2 (n : ℤ) : String :=
  if 0 ≤ n ∧ n < 10 then "0" ++ toString n else toString n

/-- `VideoConverter._format_time` (src/converter.py lines 425-431).
`int(x)` truncation coincides with `floor` at every use site because
`seconds // 3600` is already an integer and the two `%` results are
nonnegative. -/
def formatTime (seconds : ℚ) : String :=
  let hours : ℤ := ⌊seconds / 3600⌋
  let minutes : ℤ := ⌊pyMod seconds 3600 / 60⌋
  let secs : ℤ := ⌊pyMod seconds 60⌋
  pad2 hours ++ ":" ++ pad2 minutes ++ ":" ++ pad2 secs

/-- The conditional percentage update at src/converter.py lines 386-387:
`if duration and duration > 0: percentage = min(total/duration*100, 100)`. -/
def pctUpdate (duration : Option ℚ) (total : ℚ) (old : ℚ) : ℚ :=
  match duration with
  | some d => if 0 < d then min (total / d * 100) 100 else old
  | none => old

/-- Second half of `_parse_progress` (bitrate, size, time/percentage,
speed), split out so the `ValueError` short-circuit of `float(...)` on
the fps token can be modelled in `parseProgress`. -/
def parseAfterFps (cs : List Char) (duration : Option ℚ) (p : ConversionProgress) :
    ConversionProgress :=
  let p := match scanBitrate cs with
    | some tok => { p with bitrate := ⟨tok⟩ }
    | none => p
  let p := match scanSize cs with
    | some tok => { p with size := ⟨tok⟩ }
    | none => p
  let p := match scanTime cs with
    | some (h, m, s, c) =>
      let total : ℚ := h * 3600 + m * 60 + s + (c : ℚ) / 100
      let p := { p with time := formatTime total }
      { p with percentage := pctUpdate duration total p.percentage }
    | none => p
  match scanSpeed cs with
  | some tok => { p with speed := ⟨tok⟩ }
  | none => p

/-- `VideoConverter._parse_progress` (src/converter.py lines 345-396) on
the character list of the line.  The only conversion that can raise
inside the `try` block is `float(...)` on the fps token; the surrounding
`except` swallows it, leaving the fields that were assigned before the
exception (just `frame`) updated and the rest unchanged. -/
def parseProgress (cs : List Char) (p : ConversionProgress) (duration : Option ℚ) :
    ConversionProgress :=
  if strContainsL frameKey cs && strContainsL timeKey cs then
    let p1 := match scanFrame cs with
      | some n => { p with frame := n }
      | none => p
    match scanFps cs with
    | some tok =>
      match pyFloat tok with
      | some v => parseAfterFps cs duration { p1 with fps := v }
      | none => p1
    | none => parseAfterFps cs duration p1
  else p

/-- `_parse_progress` on a Python string. -/
def parseProgressLine (line : String) (p : ConversionProgress) (duration : Option ℚ) :
    ConversionProgress :=
  parseProgress line.data p duration

/-! ## Single-file conversion (`VideoConverter.convert_video`)

The externally visible actions of `convert_video` are recorded as a
trace of events: each ffmpeg invocation (`runCmd`, carrying the built
command) and each attempted deletion of the destination file
(`deleteOutput`; the surrounding `try/except OSError: pass` means the
attempt itself is the observable action). -/

inductive ConvEvent where
  | runCmd (cmd : List String)
  | deleteOutput
deriving DecidableEq, Repr

/-- Environment of one `convert_video` call: the paths, and what the
external world (filesystem, ffprobe, ffmpeg) answers at each interaction
point. -/
structure ConvEnv where
  inputPath : String
  outputPath : String
  /-- `input_path.exists()` -/
  inputExists : Bool
  /-- `VideoUtils.get_video_codec(input_path)` (`none` = detection failed) -/
  inputCodec : Option String
  /-- ffprobe stream data used by `_detect_hdr_params` (`none` = probe failed) -/
  probe : Option (List ProbeStream)
  /-- verdict of `_run_conversion` on the first built command -/
  run1ok : Bool
  /-- verdict of `_run_conversion` on the fallback command -/
  run2ok : Bool
  /-- `output_path.exists()` at the mid-retry cleanup (line 119) -/
  outputExistsAfterRun1 : Bool
  /-- `output_path.exists()` at the final failure cleanup (line 144) -/
  outputExistsAtEnd : Bool
  /-- `VideoUtils.get_file_size_mb(input_path)` (0 when `stat` fails) -/
  fileSizeMB : ℚ

/-- `VideoConverter._build_ffmpeg_command` (src/converter.py lines
156-174); `none` propagates the `ValueError` of an unregistered codec. -/
def buildFfmpegCommand (st : ConfigState) (env : ConvEnv) (outputCodec : String)
    (quality : Option ℤ) (preserveHdr : Bool) : Option (List String) :=
  match getConversionParams st outputCodec preserveHdr quality true env.probe true with
  | none => none
  | some params => some (["ffmpeg", "-y", "-i", env.inputPath] ++ params ++ [env.outputPath])

/-- The success/failure epilogue of `convert_video` (src/converter.py
lines 135-150): on success the compression ratio
`(file_size - output_size) / file_size * 100` is computed, which raises
`ZeroDivisionError` when `file_size` is `0.0`; the outer `except` then
returns `False` without any cleanup.  On failure the destination file is
deleted if present. -/
def convertVideoFinish (env : ConvEnv) (success : Bool) (events : List ConvEvent) :
    Bool × List ConvEvent :=
  if success then
    if env.fileSizeMB = 0 then (false, events)
    else (true, events)
  else
    (false, events ++ (if env.outputExistsAtEnd then [ConvEvent.deleteOutput] else []))

/-- `VideoConverter.convert_video` (src/converter.py lines 44-154),
returning the final verdict and the event trace. -/
def convertVideo (st : ConfigState) (env : ConvEnv) (outputCodec : String)
    (quality : Option ℤ) (preserveHdr : Bool) : Bool × List ConvEvent :=
  if env.inputExists = false then (false, [])
  else
    match env.inputCodec with
    | none => (false, [])
    | some _ =>
      match getEncoderConfig st outputCodec true with
      | none => (false, [])
      | some (encoderType, _) =>
        match buildFfmpegCommand st env outputCodec quality preserveHdr with
        | none => (false, [])
        | some cmd1 =>
          if env.run1ok = false ∧ encoderType ≠ "cpu" ∧ preserveHdr = true then
            let delEvents := if env.outputExistsAfterRun1 then [ConvEvent.deleteOutput] else []
            match buildFfmpegCommand st env outputCodec quality false with
            | none => (false, [ConvEvent.runCmd cmd1] ++ delEvents)
            | some cmd2 =>
              convertVideoFinish env env.run2ok
                ([ConvEvent.runCmd cmd1] ++ delEvents ++ [ConvEvent.runCmd cmd2])
          else
            convertVideoFinish env env.run1ok [ConvEvent.runCmd cmd1]

/-- Number of ffmpeg invocations in a trace. -/
def countRuns (events : List ConvEvent) : ℕ :=
  (events.filter (fun e => match e with | ConvEvent.runCmd _ => true | _ => false)).length

/-! ## Batch conversion (`BatchConverter.convert_directory`) -/

/-- Per-file environment data for one iteration of the batch loop. -/
structure BatchFile where
  path : String
  /-- `VideoUtils.get_video_codec` result -/
  codec : Option String
  /-- `VideoUtils.generate_output_path` result -/
  destPath : String
  /-- whether `generate_output_path` raises (e.g. `mkdir` OSError),
  the only exception source inside the per-file `try` block
  (`get_video_codec` catches its own exceptions and returns `None`;
  `convert_video` catches `Exception` and returns `False`); such a raise
  happens before the iteration assigns the `output_path` local -/
  raisesExn : Bool
  /-- `str(e)` of the raised exception, if any -/
  exnMsg : String
  /-- `output_path.exists()` -/
  destExists : Bool
  /-- verdict of `self.converter.convert_video` if invoked -/
  convOk : Bool
deriving DecidableEq, Repr

/-- One entry of `results['files']`. -/
structure FileEntry where
  input : String
  output : String
  status : String
  reason : Option String
  errorMsg : Option String
deriving DecidableEq, Repr

/-- Which results counter a file outcome bumps. -/
inductive BOutcome where
  | succ
  | fail
  | skip
  | err
deriving DecidableEq, Repr

/-- The body of the per-file `try` block of `convert_directory`
(src/converter.py lines 517-577): entry appended to `results['files']`,
counter outcome, whether `convert_video` (the conversion subprocess
driver) was invoked for this file, and the updated value of the
function-scoped `output_path` local after the iteration.  The loop body
shares one function scope, so the `except` handler's
`str(output_path) if 'output_path' in locals() else 'unknown'`
(src/converter.py line 575) reads whatever `output_path` was last bound
to — possibly by an earlier iteration: `stale` is that value (`none`
while no iteration has yet executed the assignment at line 532).  A
same-codec skip `continue`s before the assignment, and an exception
raise happens inside `generate_output_path` before the assignment
completes, so both leave `stale` unchanged; every other branch runs the
assignment, rebinding the local to this file's destination path.  The
error entry's `'error'` field records `str(e)`. -/
def processFile (outputCodec : String) (stale : Option String) (f : BatchFile) :
    FileEntry × BOutcome × Bool × Option String :=
  if f.codec = some outputCodec then
    (⟨f.path, "", "skipped", some "same_codec", none⟩, BOutcome.skip, false, stale)
  else if f.raisesExn then
    (⟨f.path, stale.getD "unknown", "error", none, some f.exnMsg⟩, BOutcome.err, false, stale)
  else if f.destExists then
    (⟨f.path, f.destPath, "skipped", some "exists", none⟩, BOutcome.skip, false, some f.destPath)
  else if f.convOk then
    (⟨f.path, f.destPath, "success", none, none⟩, BOutcome.succ, true, some f.destPath)
  else
    (⟨f.path, f.destPath, "failed", none, none⟩, BOutcome.fail, true, some f.destPath)

/-- The value of the `output_path` local after processing a list of
files, starting from local state `st` (folding the fourth component of
`processFile` along the list). -/
def staleFold (outputCodec : String) : Option String → List BatchFile → Option String
  | st, [] => st
  | st, f :: fs => staleFold outputCodec (processFile outputCodec st f).2.2.2 fs

/-- Aggregated results of `convert_directory` (`results` dict plus the
instrumented list of indices of files for which `convert_video` ran). -/
structure BatchRun where
  successful : ℕ
  failed : ℕ
  skipped : ℕ
  files : List FileEntry
  invocations : List ℕ
deriving DecidableEq, Repr

/-- The `for i, input_path in enumerate(videos)` loop of
`convert_directory` (src/converter.py lines 511-577).  `cancel i`
models the cooperative `self._cancelled` flag as observed at the top of
iteration `i`; a `true` answer breaks the loop.  The `Option String`
argument threads the function-scoped `output_path` local between
iterations (see `processFile`). -/
def batchLoop (outputCodec : String) (cancel : ℕ → Bool) :
    ℕ → Option String → List BatchFile → BatchRun
  | _, _, [] => ⟨0, 0, 0, [], []⟩
  | i, stale, f :: fs =>
    if cancel i then ⟨0, 0, 0, [], []⟩
    else
      let (entry, outcome, invoked, stale2) := processFile outputCodec stale f
      let rest := batchLoop outputCodec cancel (i + 1) stale2 fs
      { successful := (if outcome = BOutcome.succ then 1 else 0) + rest.successful
        failed := (if outcome = BOutcome.fail ∨ outcome = BOutcome.err then 1 else 0) + rest.failed
        skipped := (if outcome = BOutcome.skip then 1 else 0) + rest.skipped
        files := entry :: rest.files
        invocations := (if invoked then [i] else []) ++ rest.invocations }

/-- `BatchConverter.convert_directory` (src/converter.py lines 466-586):
`results['total']` is the number of discovered videos; the other fields
are accumulated by the loop, with the `output_path` local initially
unbound. -/
def convertDirectory (outputCodec : String) (cancel : ℕ → Bool) (files : List BatchFile) :
    ℕ × BatchRun :=
  (files.length, batchLoop outputCodec cancel 0 none files)

/-! ## Canonical progress line

The claims about `_parse_progress` quantify over lines of the shape
`frame=<n> fps=<f> ... time=HH:MM:SS.cc ... speed=<s>x`; the canonical
line below realises that shape with the filler fields documented in the
source comment (src/converter.py line 350), keeping the frame digits,
fps token, time digits and speed token symbolic. -/

/-- Decides that the fixed pattern `key` mismatches `block` at a position
inside `block` (so no continuation of `block` can complete a match). -/
def mismatchWithin : List Char → List Char → Bool
  | [], _ => false
  | _ :: _, [] => false
  | k :: ks, c :: cs => if k == c then mismatchWithin ks cs else true

/-- Decides that no suffix of `block` can start a match of `key`,
whatever follows `block`. -/
def blockClears (key : List Char) : List Char → Bool
  | [] => true
  | c :: cs => mismatchWithin key (c :: cs) && blockClears key cs

def shardC1a : List Char := [' ', 'q', '=', '2', '8', '.', '0', ' ']
def shardC1b : List Char := [' ', '1', '0', '2', '4', 'k', 'B', ' ']
def shardD1a : List Char := [' ']
def shardD1b : List Char := [' ', '1', '7', '0', '.', '1', 'k', 'b', 'i', 't', 's', '/', 's', ' ']

def timeTok (a1 a2 b1 b2 c1 c2 d1 d2 : Char) : List Char :=
  [a1, a2, ':', b1, b2, ':', c1, c2, '.', d1, d2]

/-- A line `frame= <nds> fps= <fds> q=28.0 size= 1024kB
time=<a1a2>:<b1b2>:<c1c2>.<d1d2> bitrate= 170.1kbits/s speed=<sds>x`. -/
def canonLine (nds fds : List Char) (a1 a2 b1 b2 c1 c2 d1 d2 : Char) (sds : List Char) :
    List Char :=
  frameKey ++ [' '] ++ nds ++ [' '] ++ fpsKey ++ [' '] ++ fds ++
  shardC1a ++ sizeKey ++ shardC1b ++ timeKey ++ timeTok a1 a2 b1 b2 c1 c2 d1 d2 ++
  shardD1a ++ bitrateKey ++ shardD1b ++ speedKey ++ sds ++ ['x']

/-- Elapsed seconds denoted by the four two-digit time groups. -/
def canonTotal (a1 a2 b1 b2 c1 c2 d1 d2 : Char) : ℚ :=
  ((10 * dv a1 + dv a2 : ℕ) : ℚ) * 3600 + ((10 * dv b1 + dv b2 : ℕ) : ℚ) * 60 +
    ((10 * dv c1 + dv c2 : ℕ) : ℚ) + ((10 * dv d1 + dv d2 : ℕ) : ℚ) / 100

/-! ## Concrete environments used by the witnesses -/

def nvSt : ConfigState := ⟨some "nvidia", fun _ => some ["nvidia", "cpu"]⟩

def cpuSt : ConfigState := ⟨none, fun _ => some ["cpu"]⟩

/-- Hardware backend, HDR requested, first run fails, retry succeeds. -/
def hdrFailEnv : ConvEnv :=
  ⟨"in.mkv", "out.mkv", true, some "av1", none, false, true, true, false, 100⟩

/-- Successful run on an input whose size reads as 0 MB (stat failure):
the compression-ratio division raises and the outer handler returns
failure without cleanup. -/
def zeroSizeEnv : ConvEnv :=
  ⟨"in.mkv", "out.mkv", true, some "av1", none, true, true, false, true, 0⟩

/-- Single-file conversion whose detected codec equals the target. -/
def sameCodecEnv : ConvEnv :=
  ⟨"in.mkv", "out.mkv", true, some "hevc", none, true, true, false, false, 100⟩

/-- Failing software run with a present destination file. -/
def swFailEnv : ConvEnv :=
  ⟨"in.mkv", "out.mkv", true, some "av1", none, false, true, false, true, 100⟩

/-- Batch file already in the target codec. -/
def sameCodecFile : BatchFile := ⟨"b.mkv", some "hevc", "b_out.mkv", false, "", false, true⟩

/-- Batch file whose destination already exists. -/
def destExistsFile : BatchFile := ⟨"c.mkv", some "av1", "c_out.mkv", false, "", true, true⟩

/-- Batch file that converts successfully (binds the `output_path` local). -/
def convertedFile : BatchFile := ⟨"a.mkv", some "av1", "a_out.mkv", false, "", false, true⟩

/-- Batch file for which `generate_output_path` raises, with message
`boom`: its error entry reads the stale `output_path` local. -/
def exnFile : BatchFile := ⟨"d.mkv", some "av1", "d_out.mkv", true, "boom", false, true⟩

/-! ## Helper lemmas -/

lemma beq_false_of_digit (k c : Char) (hk : k.isDigit = false) (hc : c.isDigit = true) :
    (k == c) = false := by
  cases hkc : k == c
  · rfl
  · exact absurd (eq_of_beq hkc ▸ hc) (by simp [hk])

lemma beq_false_of_digdot (k c : Char) (hk : k.isDigit = false) (hkdot : (k == '.') = false)
    (hc : isDigDot c = true) : (k == c) = false := by
  have hsplit : c.isDigit = true ∨ c = '.' := by simpa [isDigDot] using hc
  rcases hsplit with hd | rfl
  · exact beq_false_of_digit k c hk hd
  · exact hkdot

lemma beq_comm_false (k c : Char) (h : (k == c) = false) : (c == k) = false := by
  cases hck : c == k
  · rfl
  · have : c = k := eq_of_beq hck
    subst this
    simp at h

lemma not_ws_of_digdot (c : Char) (h : isDigDot c = true) : isWs c = false := by
  have hsplit : c.isDigit = true ∨ c = '.' := by simpa [isDigDot] using h
  rcases hsplit with hd | rfl
  case inl =>
    simp only [isWs]
    have h1 := beq_comm_false _ _ (beq_false_of_digit ' ' c (by decide) hd)
    have h2 := beq_comm_false _ _ (beq_false_of_digit '\t' c (by decide) hd)
    have h3 := beq_comm_false _ _ (beq_false_of_digit '\n' c (by decide) hd)
    have h4 := beq_comm_false _ _ (beq_false_of_digit '\r' c (by decide) hd)
    have h5 := beq_comm_false _ _ (beq_false_of_digit '\x0b' c (by decide) hd)
    have h6 := beq_comm_false _ _ (beq_false_of_digit '\x0c' c (by decide) hd)
    simp [h1, h2, h3, h4, h5, h6]
  case inr => decide

lemma mem_keys_of_lookup {α β : Type} [BEq α] [LawfulBEq α] {l : List (α × β)} {a : α} {b : β}
    (h : List.lookup a l = some b) : a ∈ l.map Prod.fst := by
  induction l with
  | nil => simp [List.lookup] at h
  | cons p ps ih =>
    rw [List.lookup] at h
    cases hpa : a == p.1 with
    | true =>
      have : a = p.1 := eq_of_beq hpa
      simp [this]
    | false =>
      rw [hpa] at h
      simp only [List.map_cons, List.mem_cons]
      exact Or.inr (ih h)

lemma scanFor_cons_neg {α} (key : List Char) (f : List Char → Option α) (c : Char)
    (cs : List Char) (h : isPrefixB key (c :: cs) = false) :
    scanFor key f (c :: cs) = scanFor key f cs := by
  simp [scanFor, h]

lemma scanFor_found {α} (key : List Char) (f : List Char → Option α) (c : Char)
    (cs : List Char) (a : α) (hpre : isPrefixB key (c :: cs) = true)
    (hf : f (List.drop key.length (c :: cs)) = some a) :
    scanFor key f (c :: cs) = some a := by
  simp [scanFor, hpre, hf]

lemma isPrefixB_head_false (k : Char) (ks : List Char) (c : Char) (cs : List Char)
    (h : (k == c) = false) : isPrefixB (k :: ks) (c :: cs) = false := by
  simp [isPrefixB, h]

lemma isPrefixB_append_self (l r : List Char) : isPrefixB l (l ++ r) = true := by
  induction l with
  | nil => rfl
  | cons c cs ih => simp [isPrefixB, ih]

lemma mismatchWithin_sound (key block rest : List Char) (h : mismatchWithin key block = true) :
    isPrefixB key (block ++ rest) = false := by
  induction key generalizing block with
  | nil => simp [mismatchWithin] at h
  | cons k ks ih =>
    cases block with
    | nil => simp [mismatchWithin] at h
    | cons c cs =>
      rw [mismatchWithin] at h
      cases hkc : k == c with
      | true =>
        rw [hkc] at h
        simp only [if_true] at h
        rw [List.cons_append, isPrefixB, hkc, Bool.true_and]
        exact ih cs h
      | false =>
        exact isPrefixB_head_false _ _ _ _ hkc

lemma scanFor_skip_block {α} (k : Char) (ks : List Char) (f : List Char → Option α)
    (block rest : List Char) (hb : ∀ c ∈ block, (k == c) = false) :
    scanFor (k :: ks) f (block ++ rest) = scanFor (k :: ks) f rest := by
  induction block with
  | nil => rfl
  | cons c bs ih =>
    rw [List.cons_append,
      scanFor_cons_neg _ _ _ _ (isPrefixB_head_false _ _ _ _ (hb c (List.mem_cons_self _ _)))]
    exact ih (fun c2 h2 => hb c2 (List.mem_cons_of_mem _ h2))

lemma scanFor_skip_clear {α} (key : List Char) (f : List Char → Option α)
    (block rest : List Char) (h : blockClears key block = true) :
    scanFor key f (block ++ rest) = scanFor key f rest := by
  induction block with
  | nil => rfl
  | cons c cs ih =>
    rw [blockClears, Bool.and_eq_true] at h
    have hpre := mismatchWithin_sound key (c :: cs) rest h.1
    rw [List.cons_append] at hpre
    rw [List.cons_append, scanFor_cons_neg _ _ _ _ hpre]
    exact ih h.2

lemma skip_digit_block {α} (k : Char) (ks : List Char) (f : List Char → Option α)
    (block rest : List Char) (hk : k.isDigit = false) (hb : ∀ c ∈ block, c.isDigit = true) :
    scanFor (k :: ks) f (block ++ rest) = scanFor (k :: ks) f rest :=
  scanFor_skip_block _ _ _ _ _ (fun c hc => beq_false_of_digit _ _ hk (hb c hc))

lemma skip_digdot_block {α} (k : Char) (ks : List Char) (f : List Char → Option α)
    (block rest : List Char) (hk : k.isDigit = false) (hkdot : (k == '.') = false)
    (hb : ∀ c ∈ block, isDigDot c = true) :
    scanFor (k :: ks) f (block ++ rest) = scanFor (k :: ks) f rest :=
  scanFor_skip_block _ _ _ _ _ (fun c hc => beq_false_of_digdot _ _ hk hkdot (hb c hc))

lemma skip_timeTok {α} (k : Char) (ks : List Char) (f : List Char → Option α)
    (a1 a2 b1 b2 c1 c2 d1 d2 : Char) (rest : List Char)
    (hk : k.isDigit = false) (hkcolon : (k == ':') = false) (hkdot : (k == '.') = false)
    (ha1 : a1.isDigit = true) (ha2 : a2.isDigit = true) (hb1 : b1.isDigit = true)
    (hb2 : b2.isDigit = true) (hc1 : c1.isDigit = true) (hc2 : c2.isDigit = true)
    (hd1 : d1.isDigit = true) (hd2 : d2.isDigit = true) :
    scanFor (k :: ks) f (timeTok a1 a2 b1 b2 c1 c2 d1 d2 ++ rest) = scanFor (k :: ks) f rest := by
  apply scanFor_skip_block
  intro c hc
  simp only [timeTok, List.mem_cons, List.not_mem_nil, or_false] at hc
  rcases hc with rfl | rfl | rfl | rfl | rfl | rfl | rfl | rfl | rfl | rfl | rfl
  · exact beq_false_of_digit _ _ hk ha1
  · exact beq_false_of_digit _ _ hk ha2
  · exact hkcolon
  · exact beq_false_of_digit _ _ hk hb1
  · exact beq_false_of_digit _ _ hk hb2
  · exact hkcolon
  · exact beq_false_of_digit _ _ hk hc1
  · exact beq_false_of_digit _ _ hk hc2
  · exact hkdot
  · exact beq_false_of_digit _ _ hk hd1
  · exact beq_false_of_digit _ _ hk hd2

lemma takeWhile_block (p : Char → Bool) (block : List Char) (c : Char) (rest : List Char)
    (hb : ∀ x ∈ block, p x = true) (hc : p c = false) :
    (block ++ c :: rest).takeWhile p = block := by
  induction block with
  | nil => simp [List.takeWhile, hc]
  | cons b bs ih =>
    rw [List.cons_append, List.takeWhile_cons, hb b (List.mem_cons_self _ _)]
    simp only [if_true]
    rw [ih (fun x hx => hb x (List.mem_cons_of_mem _ hx))]

lemma dropWhile_block (p : Char → Bool) (block : List Char) (c : Char) (rest : List Char)
    (hb : ∀ x ∈ block, p x = true) (hc : p c = false) :
    (block ++ c :: rest).dropWhile p = c :: rest := by
  induction block with
  | nil => simp [List.dropWhile, hc]
  | cons b bs ih =>
    rw [List.cons_append, List.dropWhile_cons, hb b (List.mem_cons_self _ _)]
    simp only [if_true]
    exact ih (fun x hx => hb x (List.mem_cons_of_mem _ hx))

lemma dropWhile_head_false (p : Char → Bool) (c : Char) (cs : List Char) (h : p c = false) :
    (c :: cs).dropWhile p = c :: cs := by
  simp [List.dropWhile_cons, h]

/-! ## Claim C2 -/

lemma registry_has_cpu (codec : String) (tbl : List (String × List (String × String)))
    (h : List.lookup codec codecEncoders = some tbl) :
    ∃ cfg, List.lookup "cpu" tbl = some cfg := by
  by_cases h1 : codec = "hevc"
  · subst h1
    have hx : List.lookup "hevc" codecEncoders =
        some [("nvidia", hevcNvidiaCfg), ("amd", hevcAmdCfg),
              ("intel", hevcIntelCfg), ("cpu", hevcCpuCfg)] := rfl
    rw [hx] at h
    obtain rfl := (Option.some.inj h).symm
    exact ⟨hevcCpuCfg, rfl⟩
  by_cases h2 : codec = "h264"
  · subst h2
    have hx : List.lookup "h264" codecEncoders =
        some [("nvidia", h264NvidiaCfg), ("amd", h264AmdCfg),
              ("intel", h264IntelCfg), ("cpu", h264CpuCfg)] := rfl
    rw [hx] at h
    obtain rfl := (Option.some.inj h).symm
    exact ⟨h264CpuCfg, rfl⟩
  by_cases h3 : codec = "av1"
  · subst h3
    have hx : List.lookup "av1" codecEncoders =
        some [("nvidia", av1NvidiaCfg), ("intel", av1IntelCfg), ("cpu", av1CpuCfg)] := rfl
    rw [hx] at h
    obtain rfl := (Option.some.inj h).symm
    exact ⟨av1CpuCfg, rfl⟩
  by_cases h4 : codec = "vp9"
  · subst h4
    have hx : List.lookup "vp9" codecEncoders = some [("cpu", vp9CpuCfg)] := rfl
    rw [hx] at h
    obtain rfl := (Option.some.inj h).symm
    exact ⟨vp9CpuCfg, rfl⟩
  · exfalso
    have hb1 : (codec == "hevc") = false := beq_eq_false_iff_ne.mpr h1
    have hb2 : (codec == "h264") = false := beq_eq_false_iff_ne.mpr h2
    have hb3 : (codec == "av1") = false := beq_eq_false_iff_ne.mpr h3
    have hb4 : (codec == "vp9") = false := beq_eq_false_iff_ne.mpr h4
    have hnone : List.lookup codec codecEncoders = none := by
      simp [codecEncoders, List.lookup, hb1, hb2, hb3, hb4]
    rw [hnone] at h
    exact Option.noConfusion h

/-- Claim C2: for every output codec registered in the encoder registry,
`get_encoder_config` returns a backend that has a registered parameter
set for that codec (it degrades to the software `"cpu"` backend and its
parameter set whenever the detected hardware backend has no registered
set or is not in the per-codec availability list). -/
theorem C2_encoder_selection_registered (st : ConfigState) (codec : String) (preferGpu : Bool)
    (tbl : List (String × List (String × String)))
    (h : List.lookup codec codecEncoders = some tbl) :
    ∃ ty cfg, getEncoderConfig st codec preferGpu = some (ty, cfg) ∧
      List.lookup ty tbl = some cfg ∧ ty ∈ registeredBackends codec := by
  have hreg : registeredBackends codec = tbl.map Prod.fst := by
    simp [registeredBackends, h]
  rcases hl : List.lookup (selectBackendType st codec preferGpu) tbl with _ | cfg
  · obtain ⟨cfg2, hcpu⟩ := registry_has_cpu codec tbl h
    refine ⟨"cpu", cfg2, ?_, hcpu, ?_⟩
    · unfold getEncoderConfig
      rw [h]
      simp only [hl, hcpu]
    · rw [hreg]
      exact mem_keys_of_lookup hcpu
  · refine ⟨selectBackendType st codec preferGpu, cfg, ?_, hl, ?_⟩
    · unfold getEncoderConfig
      rw [h]
      simp only [hl]
    · rw [hreg]
      exact mem_keys_of_lookup hl

/-- Witness for C2 at a concrete state: an NVIDIA machine asking for vp9
(for which no nvidia parameter set is registered) degrades to `"cpu"`. -/
theorem C2_encoder_selection_registered_witness :
    List.lookup "vp9" codecEncoders = some [("cpu", vp9CpuCfg)] ∧
    ∃ ty cfg,
      getEncoderConfig ⟨some "nvidia", fun _ => some ["nvidia", "cpu"]⟩ "vp9" true =
        some (ty, cfg) ∧
      List.lookup ty [("cpu", vp9CpuCfg)] = some cfg ∧ ty ∈ registeredBackends "vp9" :=
  ⟨rfl, C2_encoder_selection_registered ⟨some "nvidia", fun _ => some ["nvidia", "cpu"]⟩
    "vp9" true [("cpu", vp9CpuCfg)] rfl⟩

/-! ## Claim C3

The claim fails at `quality = 0`: `str(quality if quality else
config["crf"])` treats `0` as falsy, so a present quality value of `0`
is silently replaced by the parameter set's default.  For every nonzero
present quality value the claim holds. -/

/-- Counterexample to C3 as stated: with the software HEVC backend and the
present quality value `0`, the built arguments carry the default `23`,
not `0`; the value `0` appears nowhere in the argument list. -/
theorem C3_counterexample :
    getHevcParams "cpu" hevcCpuCfg (some 0) =
      ["-preset", "medium", "-crf", "23", "-x265-params", x265ParamsStr] ∧
    "0" ∉ getHevcParams "cpu" hevcCpuCfg (some 0) := by
  constructor
  · rfl
  · decide

/-- Claim C3 (amended): for every present **nonzero** quality value `q`,
each HEVC backend's built argument sequence carries `q` as its
quality-bearing argument (`-crf` for cpu, `-cq` for nvidia, `-qp_i/p/b`
for amd, `-global_quality` for intel) with every other parameter
unchanged; and the spec scenario holds: software backend, target hevc,
quality 20 yields a command with `-crf 20` and no `-cq`/`-qp_i`. -/
theorem C3_quality_override (q : ℤ) (hq : q ≠ 0) :
    getHevcParams "cpu" hevcCpuCfg (some q) =
      ["-preset", "medium", "-crf", toString q, "-x265-params", x265ParamsStr] ∧
    getHevcParams "nvidia" hevcNvidiaCfg (some q) =
      ["-preset", "p4", "-rc", "vbr", "-cq", toString q, "-b_ref_mode", "middle",
       "-spatial_aq", "1", "-temporal_aq", "1"] ∧
    getHevcParams "amd" hevcAmdCfg (some q) =
      ["-quality", "balanced", "-rc", "cqp", "-qp_i", toString q, "-qp_p", toString q,
       "-qp_b", toString q] ∧
    getHevcParams "intel" hevcIntelCfg (some q) =
      ["-preset", "medium", "-global_quality", toString q, "-look_ahead", "1"] ∧
    getConversionParams ⟨none, fun c => if c = "hevc" then some ["cpu"] else none⟩
        "hevc" true (some 20) true none true =
      some ["-c:v", "libx265", "-preset", "medium", "-crf", "20",
            "-x265-params", x265ParamsStr,
            "-color_primaries", "copy", "-color_trc", "copy", "-colorspace", "copy",
            "-color_range", "copy", "-map_metadata", "0", "-movflags", "+write_colr",
            "-c:a", "copy", "-c:s", "copy", "-map", "0"] ∧
    "-cq" ∉ ["-c:v", "libx265", "-preset", "medium", "-crf", "20",
            "-x265-params", x265ParamsStr,
            "-color_primaries", "copy", "-color_trc", "copy", "-colorspace", "copy",
            "-color_range", "copy", "-map_metadata", "0", "-movflags", "+write_colr",
            "-c:a", "copy", "-c:s", "copy", "-map", "0"] ∧
    "-qp_i" ∉ ["-c:v", "libx265", "-preset", "medium", "-crf", "20",
            "-x265-params", x265ParamsStr,
            "-color_primaries", "copy", "-color_trc", "copy", "-colorspace", "copy",
            "-color_range", "copy", "-map_metadata", "0", "-movflags", "+write_colr",
            "-c:a", "copy", "-c:s", "copy", "-map", "0"] := by
  refine ⟨?_, ?_, ?_, ?_, by rfl, by decide, by decide⟩
  · simp [getHevcParams, pyQualityOr, cfgGet, hevcCpuCfg, List.lookup, hq]
  · simp [getHevcParams, pyQualityOr, cfgGet, hevcNvidiaCfg, List.lookup, hq]
  · simp [getHevcParams, pyQualityOr, cfgGet, hevcAmdCfg, List.lookup, hq]
  · simp [getHevcParams, pyQualityOr, cfgGet, hevcIntelCfg, List.lookup, hq]

/-- Witness for C3 at the concrete quality value 20. -/
theorem C3_quality_override_witness :
    (20 : ℤ) ≠ 0 ∧
    getHevcParams "cpu" hevcCpuCfg (some 20) =
      ["-preset", "medium", "-crf", toString (20 : ℤ), "-x265-params", x265ParamsStr] :=
  ⟨by decide, (C3_quality_override 20 (by decide)).1⟩

/-! ## Claim C5 -/

lemma firstVideoStream_append (pre : List ProbeStream) (s : ProbeStream)
    (rest : List ProbeStream)
    (hpre : ∀ t ∈ pre, t.codecType ≠ "video") (hs : s.codecType = "video") :
    firstVideoStream (pre ++ s :: rest) = some s := by
  induction pre with
  | nil => simp [firstVideoStream, hs]
  | cons t ts ih =>
    rw [List.cons_append, firstVideoStream, if_neg (hpre t (List.mem_cons_self _ _))]
    exact ih (fun u hu => hpre u (List.mem_cons_of_mem _ hu))

/-- Claim C5: for an HDR-preserving conversion on the nvidia backend,
whenever the probed source's first video stream has a transfer
characteristic classifying as HLG (contains `arib-std-b67` or `hlg`
case-insensitively), the emitted color arguments are the canonical HDR10
set (bt2020 / smpte2084 / bt2020nc / tv), not the HLG set — even though
detection itself classified the source as HLG. -/
theorem C5_nvidia_hlg_uses_hdr10 (pre : List ProbeStream) (s : ProbeStream)
    (rest : List ProbeStream)
    (hpre : ∀ t ∈ pre, t.codecType ≠ "video") (hs : s.codecType = "video")
    (hhlg : strContains (strToLower (pyOr s.colorTransfer "")) "arib-std-b67" = true ∨
            strContains (strToLower (pyOr s.colorTransfer "")) "hlg" = true) :
    detectHdrParams (some (pre ++ s :: rest)) = hlgParams ∧
    getHdrParams "nvidia" true (some (pre ++ s :: rest)) =
      ["-color_primaries", "bt2020", "-color_trc", "smpte2084",
       "-colorspace", "bt2020nc", "-color_range", "tv", "-map_metadata", "0"] ∧
    getHdrParams "nvidia" true (some (pre ++ s :: rest)) ≠
      ["-color_primaries", "bt2020", "-color_trc", "arib-std-b67",
       "-colorspace", "bt2020nc", "-color_range", "tv", "-map_metadata", "0"] := by
  have hdet : detectHdrParams (some (pre ++ s :: rest)) = hlgParams := by
    have hfv := firstVideoStream_append pre s rest hpre hs
    have hb : (strContains (strToLower (pyOr s.colorTransfer "")) "arib-std-b67" ||
        strContains (strToLower (pyOr s.colorTransfer "")) "hlg") = true := by
      rcases hhlg with h | h <;> simp [h]
    simp [detectHdrParams, hfv, hb]
  have hget : getHdrParams "nvidia" true (some (pre ++ s :: rest)) =
      ["-color_primaries", "bt2020", "-color_trc", "smpte2084",
       "-colorspace", "bt2020nc", "-color_range", "tv", "-map_metadata", "0"] := by
    simp [getHdrParams, hdet, hlgParams, hdr10Canonical]
  refine ⟨hdet, hget, ?_⟩
  rw [hget]
  decide

/-- Witness for C5: a single HLG video stream probed on nvidia. -/
theorem C5_nvidia_hlg_uses_hdr10_witness :
    detectHdrParams (some [⟨"video", none, some "arib-std-b67", none, none⟩]) = hlgParams ∧
    getHdrParams "nvidia" true (some [⟨"video", none, some "arib-std-b67", none, none⟩]) =
      ["-color_primaries", "bt2020", "-color_trc", "smpte2084",
       "-colorspace", "bt2020nc", "-color_range", "tv", "-map_metadata", "0"] ∧
    getHdrParams "nvidia" true (some [⟨"video", none, some "arib-std-b67", none, none⟩]) ≠
      ["-color_primaries", "bt2020", "-color_trc", "arib-std-b67",
       "-colorspace", "bt2020nc", "-color_range", "tv", "-map_metadata", "0"] :=
  C5_nvidia_hlg_uses_hdr10 [] ⟨"video", none, some "arib-std-b67", none, none⟩ []
    (by simp) rfl (Or.inl (by decide))

/-! ## Claims C1, C4, C9: `convert_video` -/

lemma countRuns_append (a b : List ConvEvent) :
    countRuns (a ++ b) = countRuns a + countRuns b := by
  simp [countRuns, List.filter_append]

lemma getConversionParams_some (st : ConfigState) (oc : String) (ph : Bool) (q : Option ℤ)
    (ig : Bool) (probe : Option (List ProbeStream)) (ty : String)
    (cfg : List (String × String)) (h : getEncoderConfig st oc true = some (ty, cfg)) :
    ∃ ps, getConversionParams st oc ph q ig probe true = some ps := by
  unfold getConversionParams
  rw [h]
  exact ⟨_, rfl⟩

lemma buildFfmpegCommand_some (st : ConfigState) (env : ConvEnv) (oc : String) (q : Option ℤ)
    (ph : Bool) (ty : String) (cfg : List (String × String))
    (h : getEncoderConfig st oc true = some (ty, cfg)) :
    ∃ cmd, buildFfmpegCommand st env oc q ph = some cmd := by
  obtain ⟨ps, hps⟩ := getConversionParams_some st oc ph q true env.probe ty cfg h
  refine ⟨["ffmpeg", "-y", "-i", env.inputPath] ++ ps ++ [env.outputPath], ?_⟩
  unfold buildFfmpegCommand
  rw [hps]

lemma convertVideoFinish_trace (env : ConvEnv) (s : Bool) (events : List ConvEvent) :
    ∃ tail, (convertVideoFinish env s events).2 = events ++ tail ∧ countRuns tail = 0 := by
  unfold convertVideoFinish
  cases s with
  | false =>
    refine ⟨(if env.outputExistsAtEnd then [ConvEvent.deleteOutput] else []), by simp, ?_⟩
    by_cases hx : env.outputExistsAtEnd <;> simp [hx, countRuns]
  | true =>
    by_cases hz : env.fileSizeMB = 0
    · exact ⟨[], by simp [hz], rfl⟩
    · exact ⟨[], by simp [hz], rfl⟩

lemma convertVideoFinish_fail (env : ConvEnv) (events : List ConvEvent)
    (hx : env.outputExistsAtEnd = true) :
    (convertVideoFinish env false events).1 = false ∧
    ConvEvent.deleteOutput ∈ (convertVideoFinish env false events).2 := by
  simp [convertVideoFinish, hx]

/-- Claim C1: when the first run fails, the selected backend is
hardware-accelerated and HDR preservation was requested, `convert_video`
deletes any existing destination file, rebuilds the command with HDR
preservation disabled and retries exactly once; no retry occurs for a
software backend or a non-HDR request; and no call ever performs more
than two runs. -/
theorem C1_hdr_fallback_retry (st : ConfigState) (env : ConvEnv) (oc : String)
    (q : Option ℤ) (ph : Bool) (ic ty : String) (cfg : List (String × String))
    (hin : env.inputExists = true) (hic : env.inputCodec = some ic)
    (henc : getEncoderConfig st oc true = some (ty, cfg)) :
    (env.run1ok = false → ty ≠ "cpu" → ph = true →
      ∃ cmd1 cmd2 tail,
        buildFfmpegCommand st env oc q true = some cmd1 ∧
        buildFfmpegCommand st env oc q false = some cmd2 ∧
        (convertVideo st env oc q ph).2 =
          ConvEvent.runCmd cmd1 ::
            ((if env.outputExistsAfterRun1 then [ConvEvent.deleteOutput] else []) ++
              ConvEvent.runCmd cmd2 :: tail) ∧
        countRuns tail = 0 ∧
        countRuns (convertVideo st env oc q ph).2 = 2) ∧
    ((ty = "cpu" ∨ ph = false) → countRuns (convertVideo st env oc q ph).2 = 1) ∧
    (∀ (st2 : ConfigState) (env2 : ConvEnv) (oc2 : String) (q2 : Option ℤ) (ph2 : Bool),
      countRuns (convertVideo st2 env2 oc2 q2 ph2).2 ≤ 2) := by
  refine ⟨?_, ?_, ?_⟩
  · intro h1 h2 h3
    subst h3
    obtain ⟨cmd1, hc1⟩ := buildFfmpegCommand_some st env oc q true ty cfg henc
    obtain ⟨cmd2, hc2⟩ := buildFfmpegCommand_some st env oc q false ty cfg henc
    obtain ⟨tail, htr, hct⟩ := convertVideoFinish_trace env env.run2ok
      ([ConvEvent.runCmd cmd1] ++
        (if env.outputExistsAfterRun1 then [ConvEvent.deleteOutput] else []) ++
        [ConvEvent.runCmd cmd2])
    have htrace : (convertVideo st env oc q true).2 =
        ([ConvEvent.runCmd cmd1] ++
          (if env.outputExistsAfterRun1 then [ConvEvent.deleteOutput] else []) ++
          [ConvEvent.runCmd cmd2]) ++ tail := by
      unfold convertVideo
      simp only [hin, hic, henc, hc1, hc2]
      rw [if_neg (by simp), if_pos (show env.run1ok = false ∧ ty ≠ "cpu" ∧ True
        from ⟨h1, h2, trivial⟩)]
      exact htr
    refine ⟨cmd1, cmd2, tail, hc1, hc2, ?_, hct, ?_⟩
    · rw [htrace]
      simp [List.append_assoc]
    · rw [htrace, countRuns_append, hct, countRuns_append, countRuns_append]
      by_cases hx : env.outputExistsAfterRun1 <;> simp [hx, countRuns]
  · intro hor
    obtain ⟨cmd1, hc1⟩ := buildFfmpegCommand_some st env oc q ph ty cfg henc
    obtain ⟨tail, htr, hct⟩ := convertVideoFinish_trace env env.run1ok [ConvEvent.runCmd cmd1]
    have hneg : ¬(env.run1ok = false ∧ ty ≠ "cpu" ∧ ph = true) := by
      rcases hor with rfl | rfl
      · exact fun hcon => hcon.2.1 rfl
      · exact fun hcon => Bool.false_ne_true hcon.2.2
    have htrace : (convertVideo st env oc q ph).2 = [ConvEvent.runCmd cmd1] ++ tail := by
      unfold convertVideo
      simp only [hin, hic, henc, hc1]
      rw [if_neg (by simp), if_neg hneg]
      exact htr
    rw [htrace, countRuns_append, hct]
    simp [countRuns]
  · intro st2 env2 oc2 q2 ph2
    unfold convertVideo
    by_cases e1 : env2.inputExists = false
    · simp [e1, countRuns]
    · rw [if_neg e1]
      rcases hcodec : env2.inputCodec with _ | ic2
      · simp [countRuns]
      · rcases hen : getEncoderConfig st2 oc2 true with _ | tycfg
        · simp [countRuns]
        · obtain ⟨ty2, cfg2⟩ := tycfg
          rcases hb1 : buildFfmpegCommand st2 env2 oc2 q2 ph2 with _ | cmd1b
          · simp [countRuns]
          · dsimp only
            by_cases hcond : (env2.run1ok = false ∧ ty2 ≠ "cpu" ∧ ph2 = true)
            · rw [if_pos hcond]
              rcases hb2 : buildFfmpegCommand st2 env2 oc2 q2 false with _ | cmd2b
              · by_cases hx : env2.outputExistsAfterRun1 <;> simp [hx, countRuns]
              · obtain ⟨tail, htr, hct⟩ := convertVideoFinish_trace env2 env2.run2ok
                  ([ConvEvent.runCmd cmd1b] ++
                    (if env2.outputExistsAfterRun1 then [ConvEvent.deleteOutput] else []) ++
                    [ConvEvent.runCmd cmd2b])
                rw [htr, countRuns_append, hct, countRuns_append, countRuns_append]
                by_cases hx : env2.outputExistsAfterRun1 <;> simp [hx, countRuns]
            · rw [if_neg hcond]
              obtain ⟨tail, htr, hct⟩ := convertVideoFinish_trace env2 env2.run1ok
                [ConvEvent.runCmd cmd1b]
              rw [htr, countRuns_append, hct]
              simp [countRuns]

/-- Witness for C1: nvidia backend, HDR requested, failing first run with
a leftover partial file; the trace is run, delete, run-without-HDR. -/
theorem C1_hdr_fallback_retry_witness :
    ∃ cmd1 cmd2 tail,
      buildFfmpegCommand nvSt hdrFailEnv "hevc" none true = some cmd1 ∧
      buildFfmpegCommand nvSt hdrFailEnv "hevc" none false = some cmd2 ∧
      (convertVideo nvSt hdrFailEnv "hevc" none true).2 =
        ConvEvent.runCmd cmd1 ::
          ((if hdrFailEnv.outputExistsAfterRun1 then [ConvEvent.deleteOutput] else []) ++
            ConvEvent.runCmd cmd2 :: tail) ∧
      countRuns tail = 0 ∧
      countRuns (convertVideo nvSt hdrFailEnv "hevc" none true).2 = 2 :=
  (C1_hdr_fallback_retry nvSt hdrFailEnv "hevc" none true "av1" "nvidia" hevcNvidiaCfg
    rfl rfl rfl).1 rfl (by decide) rfl

/-- Counterexample to C4 as stated: a run succeeds on an input whose
measured size is 0 MB, so the compression-ratio computation
`(file_size - output_size) / file_size * 100` raises `ZeroDivisionError`;
the outer `except` handler returns failure, and although the destination
file exists at that point, no deletion is attempted. -/
theorem C4_counterexample :
    (convertVideo cpuSt zeroSizeEnv "hevc" none false).1 = false ∧
    zeroSizeEnv.outputExistsAtEnd = true ∧
    ConvEvent.deleteOutput ∉ (convertVideo cpuSt zeroSizeEnv "hevc" none false).2 := by
  refine ⟨rfl, rfl, ?_⟩
  decide

/-- Claim C4 (amended): on the normal failure path — the run verdict
(after the optional HDR retry) is failure and no exception escaped —
`convert_video` removes the destination file when it exists and returns
failure; but when an unexpected exception escapes to the outer handler
(e.g. the `ZeroDivisionError` of the counterexample), the destination is
not removed. -/
theorem C4_cleanup_on_normal_failure (st : ConfigState) (env : ConvEnv) (oc : String)
    (q : Option ℤ) (ph : Bool) (ic ty : String) (cfg : List (String × String))
    (hin : env.inputExists = true) (hic : env.inputCodec = some ic)
    (henc : getEncoderConfig st oc true = some (ty, cfg))
    (hx : env.outputExistsAtEnd = true) :
    (env.run1ok = false → (ty = "cpu" ∨ ph = false) →
      (convertVideo st env oc q ph).1 = false ∧
      ConvEvent.deleteOutput ∈ (convertVideo st env oc q ph).2) ∧
    (env.run1ok = false → ty ≠ "cpu" → ph = true → env.run2ok = false →
      (convertVideo st env oc q ph).1 = false ∧
      ConvEvent.deleteOutput ∈ (convertVideo st env oc q ph).2) := by
  constructor
  · intro h1 hor
    obtain ⟨cmd1, hc1⟩ := buildFfmpegCommand_some st env oc q ph ty cfg henc
    have hneg : ¬(env.run1ok = false ∧ ty ≠ "cpu" ∧ ph = true) := by
      rcases hor with rfl | rfl
      · exact fun hcon => hcon.2.1 rfl
      · exact fun hcon => Bool.false_ne_true hcon.2.2
    have heq : convertVideo st env oc q ph =
        convertVideoFinish env env.run1ok [ConvEvent.runCmd cmd1] := by
      unfold convertVideo
      simp only [hin, hic, henc, hc1]
      rw [if_neg (by simp), if_neg hneg]
    rw [heq, h1]
    exact convertVideoFinish_fail env _ hx
  · intro h1 h2 h3 h4
    subst h3
    obtain ⟨cmd1, hc1⟩ := buildFfmpegCommand_some st env oc q true ty cfg henc
    obtain ⟨cmd2, hc2⟩ := buildFfmpegCommand_some st env oc q false ty cfg henc
    have heq : convertVideo st env oc q true =
        convertVideoFinish env env.run2ok
          ([ConvEvent.runCmd cmd1] ++
            (if env.outputExistsAfterRun1 then [ConvEvent.deleteOutput] else []) ++
            [ConvEvent.runCmd cmd2]) := by
      unfold convertVideo
      simp only [hin, hic, henc, hc1, hc2]
      rw [if_neg (by simp), if_pos (show env.run1ok = false ∧ ty ≠ "cpu" ∧ True
        from ⟨h1, h2, trivial⟩)]
    rw [heq, h4]
    exact convertVideoFinish_fail env _ hx

/-- Witness for the amended C4: a failing software run with a present
destination file returns failure and deletes it. -/
theorem C4_cleanup_on_normal_failure_witness :
    (convertVideo cpuSt swFailEnv "hevc" none true).1 = false ∧
    ConvEvent.deleteOutput ∈ (convertVideo cpuSt swFailEnv "hevc" none true).2 :=
  (C4_cleanup_on_normal_failure cpuSt swFailEnv "hevc" none true "av1" "cpu" hevcCpuCfg
    rfl rfl rfl rfl).1 rfl (Or.inl rfl)

/-- Claim C9: when the detected source codec equals the target codec, the
single-file entry point still runs the conversion (the trace starts with
an ffmpeg invocation), while the batch entry point records the same file
as skipped with reason `same_codec` and performs no invocation. -/
theorem C9_same_codec_asymmetry (st : ConfigState) (env : ConvEnv) (oc : String)
    (q : Option ℤ) (ph : Bool) (ty : String) (cfg : List (String × String))
    (hin : env.inputExists = true) (hic : env.inputCodec = some oc)
    (henc : getEncoderConfig st oc true = some (ty, cfg))
    (f : BatchFile) (hf : f.codec = some oc) (cancel : ℕ → Bool) (hc0 : cancel 0 = false) :
    (∃ cmd1 rest, (convertVideo st env oc q ph).2 = ConvEvent.runCmd cmd1 :: rest) ∧
    (convertDirectory oc cancel [f]).2.files =
      [⟨f.path, "", "skipped", some "same_codec", none⟩] ∧
    (convertDirectory oc cancel [f]).2.invocations = [] := by
  refine ⟨?_, ?_, ?_⟩
  · obtain ⟨cmd1, hc1⟩ := buildFfmpegCommand_some st env oc q ph ty cfg henc
    by_cases hcond : (env.run1ok = false ∧ ty ≠ "cpu" ∧ ph = true)
    · rcases hb2 : buildFfmpegCommand st env oc q false with _ | cmd2
      · refine ⟨cmd1, (if env.outputExistsAfterRun1 then [ConvEvent.deleteOutput] else []), ?_⟩
        unfold convertVideo
        simp only [hin, hic, henc, hc1, hb2]
        rw [if_neg (by simp), if_pos hcond]
        simp
      · obtain ⟨tail, htr, _⟩ := convertVideoFinish_trace env env.run2ok
          ([ConvEvent.runCmd cmd1] ++
            (if env.outputExistsAfterRun1 then [ConvEvent.deleteOutput] else []) ++
            [ConvEvent.runCmd cmd2])
        refine ⟨cmd1, ((if env.outputExistsAfterRun1 then [ConvEvent.deleteOutput] else []) ++
          [ConvEvent.runCmd cmd2]) ++ tail, ?_⟩
        have heq : (convertVideo st env oc q ph).2 =
            (convertVideoFinish env env.run2ok
              ([ConvEvent.runCmd cmd1] ++
                (if env.outputExistsAfterRun1 then [ConvEvent.deleteOutput] else []) ++
                [ConvEvent.runCmd cmd2])).2 := by
          unfold convertVideo
          simp only [hin, hic, henc, hc1, hb2]
          rw [if_neg (by simp), if_pos hcond]
        rw [heq, htr]
        simp [List.append_assoc]
    · obtain ⟨tail, htr, _⟩ := convertVideoFinish_trace env env.run1ok [ConvEvent.runCmd cmd1]
      refine ⟨cmd1, tail, ?_⟩
      have heq : (convertVideo st env oc q ph).2 =
          (convertVideoFinish env env.run1ok [ConvEvent.runCmd cmd1]).2 := by
        unfold convertVideo
        simp only [hin, hic, henc, hc1]
        rw [if_neg (by simp), if_neg hcond]
      rw [heq, htr]
      simp
  · simp [convertDirectory, batchLoop, hc0, processFile, hf]
  · simp [convertDirectory, batchLoop, hc0, processFile, hf]

/-- Witness for C9 at a concrete hevc-to-hevc request. -/
theorem C9_same_codec_asymmetry_witness :
    (∃ cmd1 rest,
      (convertVideo cpuSt sameCodecEnv "hevc" none true).2 = ConvEvent.runCmd cmd1 :: rest) ∧
    (convertDirectory "hevc" (fun _ => false) [sameCodecFile]).2.files =
      [⟨sameCodecFile.path, "", "skipped", some "same_codec", none⟩] ∧
    (convertDirectory "hevc" (fun _ => false) [sameCodecFile]).2.invocations = [] :=
  C9_same_codec_asymmetry cpuSt sameCodecEnv "hevc" none true "cpu" hevcCpuCfg
    rfl rfl rfl sameCodecFile rfl (fun _ => false) rfl

/-! ## Claims C8, C10: `convert_directory` -/

lemma processFile_status_mem (oc : String) (st : Option String) (f : BatchFile) :
    (processFile oc st f).1.status = "success" ∨ (processFile oc st f).1.status = "failed" ∨
    (processFile oc st f).1.status = "skipped" ∨ (processFile oc st f).1.status = "error" := by
  unfold processFile
  split_ifs <;> simp

lemma processFile_status_outcome (oc : String) (st : Option String) (f : BatchFile) :
    ((processFile oc st f).1.status = "success" ↔ (processFile oc st f).2.1 = BOutcome.succ) ∧
    ((processFile oc st f).1.status = "failed" ↔ (processFile oc st f).2.1 = BOutcome.fail) ∧
    ((processFile oc st f).1.status = "skipped" ↔ (processFile oc st f).2.1 = BOutcome.skip) ∧
    ((processFile oc st f).1.status = "error" ↔ (processFile oc st f).2.1 = BOutcome.err) := by
  unfold processFile
  split_ifs <;> simp

lemma processFile_input (oc : String) (st : Option String) (f : BatchFile) :
    (processFile oc st f).1.input = f.path := by
  unfold processFile
  split_ifs <;> rfl

lemma processFile_invoked_const (oc : String) (st st2 : Option String) (f : BatchFile) :
    (processFile oc st f).2.2.1 = (processFile oc st2 f).2.2.1 := by
  unfold processFile
  split_ifs <;> rfl

lemma batchLoop_counts (oc : String) (cancel : ℕ → Bool) :
    ∀ (fs : List BatchFile) (i : ℕ) (st : Option String),
      (batchLoop oc cancel i st fs).successful + (batchLoop oc cancel i st fs).failed +
        (batchLoop oc cancel i st fs).skipped = (batchLoop oc cancel i st fs).files.length := by
  intro fs
  induction fs with
  | nil => intro i st; rfl
  | cons f fs ih =>
    intro i st
    by_cases hc : cancel i = true
    · simp [batchLoop, hc]
    · rcases hpf : processFile oc st f with ⟨e, o, b, st2⟩
      have hrec := ih (i + 1) st2
      simp only [batchLoop, hc, if_false, hpf, List.length_cons]
      cases o <;> simp <;> omega

lemma batchLoop_length (oc : String) (cancel : ℕ → Bool) :
    ∀ (fs : List BatchFile) (i : ℕ) (st : Option String),
      (batchLoop oc cancel i st fs).files.length ≤ fs.length := by
  intro fs
  induction fs with
  | nil => intro i st; exact Nat.le_refl _
  | cons f fs ih =>
    intro i st
    by_cases hc : cancel i = true
    · simp [batchLoop, hc]
    · rcases hpf : processFile oc st f with ⟨e, o, b, st2⟩
      simp only [batchLoop, hc, if_false, hpf, List.length_cons]
      exact Nat.succ_le_succ (ih (i + 1) st2)

lemma batchLoop_getElem (oc : String) (cancel : ℕ → Bool) :
    ∀ (fs : List BatchFile) (i : ℕ) (st : Option String) (j : ℕ) (e : FileEntry),
      (batchLoop oc cancel i st fs).files.get? j = some e →
      ∃ f2, fs.get? j = some f2 ∧
        e = (processFile oc (staleFold oc st (fs.take j)) f2).1 := by
  intro fs
  induction fs with
  | nil =>
    intro i st j e hget
    simp [batchLoop] at hget
  | cons f fs ih =>
    intro i st j e hget
    by_cases hc : cancel i = true
    · simp [batchLoop, hc] at hget
    · rcases hpf : processFile oc st f with ⟨e2, o, b, st2⟩
      simp only [batchLoop, hc, if_false, hpf] at hget
      cases j with
      | zero =>
        simp at hget
        refine ⟨f, rfl, ?_⟩
        show e = (processFile oc st f).1
        rw [← hget, hpf]
      | succ j2 =>
        simp only [List.get?_cons_succ] at hget ⊢
        obtain ⟨f2, hg, he⟩ := ih (i + 1) st2 j2 e hget
        refine ⟨f2, hg, ?_⟩
        have hst : staleFold oc st ((f :: fs).take (j2 + 1)) =
            staleFold oc st2 (fs.take j2) := by
          simp [List.take_succ_cons, staleFold, hpf]
        rw [hst]
        exact he

lemma batchLoop_status_mem (oc : String) (cancel : ℕ → Bool) :
    ∀ (fs : List BatchFile) (i : ℕ) (st : Option String),
      ∀ e ∈ (batchLoop oc cancel i st fs).files,
      e.status = "success" ∨ e.status = "failed" ∨
      e.status = "skipped" ∨ e.status = "error" := by
  intro fs
  induction fs with
  | nil => intro i st e he; simp [batchLoop] at he
  | cons f fs ih =>
    intro i st e he
    by_cases hc : cancel i = true
    · simp [batchLoop, hc] at he
    · rcases hpf : processFile oc st f with ⟨e2, o, b, st2⟩
      simp only [batchLoop, hc, if_false, hpf] at he
      cases he with
      | head =>
        have hmem := processFile_status_mem oc st f
        rw [hpf] at hmem
        simpa using hmem
      | tail _ he2 => exact ih (i + 1) st2 e he2

lemma batchLoop_invocations (oc : String) (cancel : ℕ → Bool) :
    ∀ (fs : List BatchFile) (i : ℕ) (st : Option String) (j : ℕ),
      j ∈ (batchLoop oc cancel i st fs).invocations →
      ∃ k f2, j = i + k ∧ fs.get? k = some f2 ∧
        ∀ st3, (processFile oc st3 f2).2.2.1 = true := by
  intro fs
  induction fs with
  | nil => intro i st j hjm; simp [batchLoop] at hjm
  | cons f fs ih =>
    intro i st j hjm
    by_cases hc : cancel i = true
    · simp [batchLoop, hc] at hjm
    · rcases hpf : processFile oc st f with ⟨e, o, b, st2⟩
      cases b with
      | false =>
        simp [batchLoop, hc, hpf] at hjm
        obtain ⟨k, f2, hjk, hg, hinv⟩ := ih (i + 1) st2 j hjm
        exact ⟨k + 1, f2, by omega, by simpa using hg, hinv⟩
      | true =>
        simp [batchLoop, hc, hpf] at hjm
        rcases hjm with rfl | hjm2
        · refine ⟨0, f, by omega, rfl, ?_⟩
          intro st3
          rw [processFile_invoked_const oc st3 st f, hpf]
        · obtain ⟨k, f2, hjk, hg, hinv⟩ := ih (i + 1) st2 j hjm2
          exact ⟨k + 1, f2, by omega, by simpa using hg, hinv⟩

lemma batchLoop_countP (oc : String) (cancel : ℕ → Bool) :
    ∀ (fs : List BatchFile) (i : ℕ) (st : Option String),
      (batchLoop oc cancel i st fs).successful =
        (batchLoop oc cancel i st fs).files.countP (fun e => decide (e.status = "success")) ∧
      (batchLoop oc cancel i st fs).failed =
        (batchLoop oc cancel i st fs).files.countP
          (fun e => decide (e.status = "failed" ∨ e.status = "error")) ∧
      (batchLoop oc cancel i st fs).skipped =
        (batchLoop oc cancel i st fs).files.countP (fun e => decide (e.status = "skipped")) := by
  intro fs
  induction fs with
  | nil => intro i st; exact ⟨rfl, rfl, rfl⟩
  | cons f fs ih =>
    intro i st
    by_cases hc : cancel i = true
    · simp [batchLoop, hc]
    · have hso := processFile_status_outcome oc st f
      rcases hpf : processFile oc st f with ⟨e, o, b, st2⟩
      have hrec := ih (i + 1) st2
      rw [hpf] at hso
      simp only [batchLoop, hc, if_false, hpf]
      cases o with
      | succ =>
        have h1 : e.status = "success" := hso.1.mpr rfl
        refine ⟨?_, ?_, ?_⟩ <;>
          simp [List.countP_cons, h1, hrec.1, hrec.2.1, hrec.2.2] <;> omega
      | fail =>
        have h1 : e.status = "failed" := hso.2.1.mpr rfl
        refine ⟨?_, ?_, ?_⟩ <;>
          simp [List.countP_cons, h1, hrec.1, hrec.2.1, hrec.2.2] <;> omega
      | skip =>
        have h1 : e.status = "skipped" := hso.2.2.1.mpr rfl
        refine ⟨?_, ?_, ?_⟩ <;>
          simp [List.countP_cons, h1, hrec.1, hrec.2.1, hrec.2.2] <;> omega
      | err =>
        have h1 : e.status = "error" := hso.2.2.2.mpr rfl
        refine ⟨?_, ?_, ?_⟩ <;>
          simp [List.countP_cons, h1, hrec.1, hrec.2.1, hrec.2.2] <;> omega

/-- Claim C8: every file processed by `convert_directory` whose detected
codec equals the target codec is recorded as skipped with reason
`same_codec` and triggers no conversion invocation; otherwise, when its
destination path already exists, it is recorded as skipped with reason
`exists` and triggers no invocation; the two skip records are distinct. -/
theorem C8_batch_skip_rules (oc : String) (cancel : ℕ → Bool) (files : List BatchFile)
    (j : ℕ) (e : FileEntry) (f2 : BatchFile)
    (hget : (convertDirectory oc cancel files).2.files.get? j = some e)
    (hfile : files.get? j = some f2) :
    (f2.codec = some oc →
      e = ⟨f2.path, "", "skipped", some "same_codec", none⟩ ∧
      j ∉ (convertDirectory oc cancel files).2.invocations) ∧
    (f2.codec ≠ some oc → f2.raisesExn = false → f2.destExists = true →
      e = ⟨f2.path, f2.destPath, "skipped", some "exists", none⟩ ∧
      j ∉ (convertDirectory oc cancel files).2.invocations) ∧
    (⟨f2.path, "", "skipped", some "same_codec", none⟩ : FileEntry) ≠
      ⟨f2.path, f2.destPath, "skipped", some "exists", none⟩ := by
  obtain ⟨f3, hf3, he⟩ := batchLoop_getElem oc cancel files 0 none j e hget
  rw [hfile] at hf3
  obtain rfl : f2 = f3 := Option.some.inj hf3
  have hninv : (processFile oc none f2).2.2.1 = false →
      j ∉ (convertDirectory oc cancel files).2.invocations := by
    intro hfalse hmem
    obtain ⟨k, f4, hjk, hg, hinv⟩ := batchLoop_invocations oc cancel files 0 none j hmem
    have hkj : k = j := by omega
    subst hkj
    rw [hfile] at hg
    obtain rfl : f2 = f4 := Option.some.inj hg
    rw [hinv none] at hfalse
    exact Bool.noConfusion hfalse
  refine ⟨?_, ?_, ?_⟩
  · intro hcodec
    exact ⟨by rw [he]; simp [processFile, hcodec],
      hninv (by simp [processFile, hcodec])⟩
  · intro h1 h2 h3
    exact ⟨by rw [he]; simp [processFile, h1, h2, h3],
      hninv (by simp [processFile, h1, h2, h3])⟩
  · simp

/-- Witness for C8 on a two-file batch: file 0 already in the target
codec, file 1 with an existing destination. -/
theorem C8_batch_skip_rules_witness :
    ((convertDirectory "hevc" (fun _ => false) [sameCodecFile, destExistsFile]).2.files.get? 0 =
      some ⟨sameCodecFile.path, "", "skipped", some "same_codec", none⟩) ∧
    (0 ∉ (convertDirectory "hevc" (fun _ => false) [sameCodecFile, destExistsFile]).2.invocations) ∧
    ((convertDirectory "hevc" (fun _ => false) [sameCodecFile, destExistsFile]).2.files.get? 1 =
      some ⟨destExistsFile.path, destExistsFile.destPath, "skipped", some "exists", none⟩) ∧
    (1 ∉ (convertDirectory "hevc" (fun _ => false) [sameCodecFile, destExistsFile]).2.invocations) := by
  have h0 := C8_batch_skip_rules "hevc" (fun _ => false) [sameCodecFile, destExistsFile]
    0 ⟨sameCodecFile.path, "", "skipped", some "same_codec", none⟩ sameCodecFile
    (by decide) (by decide)
  have h1 := C8_batch_skip_rules "hevc" (fun _ => false) [sameCodecFile, destExistsFile]
    1 ⟨destExistsFile.path, destExistsFile.destPath, "skipped", some "exists", none⟩
    destExistsFile (by decide) (by decide)
  exact ⟨by decide, (h0.1 rfl).2, by decide, (h1.2.1 (by decide) rfl rfl).2⟩

/-- Claim C10: for every run of `convert_directory`, the counters satisfy
`successful + failed + skipped = length of the entries list`; every
entry's status is one of success, failed, skipped, error; each processed
file contributes exactly one entry in processing order: the j-th entry is
produced by processing the j-th file, under the `output_path` local
accumulated over the preceding files (so its `input` field is that
file's path; an error entry's `output` field may read a stale binding
from an earlier iteration, per src/converter.py line 575); and entries
with status `error` are counted in the `failed` counter (`failed` counts
exactly the failed-or-error entries, and the other counters count their
own statuses). -/
theorem C10_batch_result_invariants (oc : String) (cancel : ℕ → Bool)
    (files : List BatchFile) :
    ((convertDirectory oc cancel files).2.successful +
       (convertDirectory oc cancel files).2.failed +
       (convertDirectory oc cancel files).2.skipped =
       (convertDirectory oc cancel files).2.files.length) ∧
    (∀ e ∈ (convertDirectory oc cancel files).2.files,
      e.status = "success" ∨ e.status = "failed" ∨
      e.status = "skipped" ∨ e.status = "error") ∧
    ((convertDirectory oc cancel files).2.files.length ≤ files.length) ∧
    (∀ (j : ℕ) (e : FileEntry),
      (convertDirectory oc cancel files).2.files.get? j = some e →
      ∃ f2, files.get? j = some f2 ∧ e.input = f2.path ∧
        e = (processFile oc (staleFold oc none (files.take j)) f2).1) ∧
    ((convertDirectory oc cancel files).2.failed =
      (convertDirectory oc cancel files).2.files.countP
        (fun e => decide (e.status = "failed" ∨ e.status = "error"))) ∧
    ((convertDirectory oc cancel files).2.successful =
      (convertDirectory oc cancel files).2.files.countP
        (fun e => decide (e.status = "success"))) ∧
    ((convertDirectory oc cancel files).2.skipped =
      (convertDirectory oc cancel files).2.files.countP
        (fun e => decide (e.status = "skipped"))) := by
  refine ⟨batchLoop_counts oc cancel files 0 none,
    batchLoop_status_mem oc cancel files 0 none,
    batchLoop_length oc cancel files 0 none,
    ?_,
    (batchLoop_countP oc cancel files 0 none).2.1,
    (batchLoop_countP oc cancel files 0 none).1,
    (batchLoop_countP oc cancel files 0 none).2.2⟩
  intro j e h
  obtain ⟨f2, hg, he⟩ := batchLoop_getElem oc cancel files 0 none j e h
  exact ⟨f2, hg, by rw [he]; exact processFile_input oc _ f2, he⟩

/-- Witness for C10 on a concrete two-file batch whose second file raises
inside `generate_output_path`: its error entry's `output` field carries
the first file's destination path through the stale `output_path` local,
and its `error` field carries `str(e)`. -/
theorem C10_batch_result_invariants_witness :
    ((convertDirectory "hevc" (fun _ => false) [convertedFile, exnFile]).2.successful +
       (convertDirectory "hevc" (fun _ => false) [convertedFile, exnFile]).2.failed +
       (convertDirectory "hevc" (fun _ => false) [convertedFile, exnFile]).2.skipped =
       (convertDirectory "hevc" (fun _ => false) [convertedFile, exnFile]).2.files.length) ∧
    ∃ f2, [convertedFile, exnFile].get? 1 = some f2 ∧
      (⟨"d.mkv", "a_out.mkv", "error", none, some "boom"⟩ : FileEntry).input = f2.path ∧
      (⟨"d.mkv", "a_out.mkv", "error", none, some "boom"⟩ : FileEntry) =
        (processFile "hevc"
          (staleFold "hevc" none ([convertedFile, exnFile].take 1)) f2).1 :=
  ⟨(C10_batch_result_invariants "hevc" (fun _ => false) [convertedFile, exnFile]).1,
   (C10_batch_result_invariants "hevc" (fun _ => false)
      [convertedFile, exnFile]).2.2.2.1 1
      ⟨"d.mkv", "a_out.mkv", "error", none, some "boom"⟩ (by decide)⟩

/-! ## Claims C6, C7: scanning the canonical progress line -/

lemma skip_digit_block2 {α} (key : List Char) (k : Char) (ks : List Char)
    (hkey : key = k :: ks) (f : List Char → Option α) (block rest : List Char)
    (hk : k.isDigit = false) (hb : ∀ c ∈ block, c.isDigit = true) :
    scanFor key f (block ++ rest) = scanFor key f rest := by
  subst hkey
  exact skip_digit_block k ks f block rest hk hb

lemma skip_digdot_block2 {α} (key : List Char) (k : Char) (ks : List Char)
    (hkey : key = k :: ks) (f : List Char → Option α) (block rest : List Char)
    (hk : k.isDigit = false) (hkdot : (k == '.') = false)
    (hb : ∀ c ∈ block, isDigDot c = true) :
    scanFor key f (block ++ rest) = scanFor key f rest := by
  subst hkey
  exact skip_digdot_block k ks f block rest hk hkdot hb

lemma skip_timeTok2 {α} (key : List Char) (k : Char) (ks : List Char)
    (hkey : key = k :: ks) (f : List Char → Option α)
    (a1 a2 b1 b2 c1 c2 d1 d2 : Char) (rest : List Char)
    (hk : k.isDigit = false) (hkcolon : (k == ':') = false) (hkdot : (k == '.') = false)
    (ha1 : a1.isDigit = true) (ha2 : a2.isDigit = true) (hb1 : b1.isDigit = true)
    (hb2 : b2.isDigit = true) (hc1 : c1.isDigit = true) (hc2 : c2.isDigit = true)
    (hd1 : d1.isDigit = true) (hd2 : d2.isDigit = true) :
    scanFor key f (timeTok a1 a2 b1 b2 c1 c2 d1 d2 ++ rest) = scanFor key f rest := by
  subst hkey
  exact skip_timeTok k ks f a1 a2 b1 b2 c1 c2 d1 d2 rest hk hkcolon hkdot
    ha1 ha2 hb1 hb2 hc1 hc2 hd1 hd2

lemma scanFor_found_atStart {α} (key : List Char) (hkey : key ≠ [])
    (f : List Char → Option α) (rest : List Char) (a : α) (hf : f rest = some a) :
    scanFor key f (key ++ rest) = some a := by
  cases key with
  | nil => exact absurd rfl hkey
  | cons k ks =>
    rw [List.cons_append]
    refine scanFor_found _ _ _ _ _ ?_ ?_
    · rw [← List.cons_append]
      exact isPrefixB_append_self _ _
    · rw [← List.cons_append, List.drop_left]
      exact hf

lemma digit_isDigDot (c : Char) (h : c.isDigit = true) : isDigDot c = true := by
  simp [isDigDot, h]

lemma frameAt_eval (nc : Char) (ntl rest : List Char)
    (hnd : ∀ c ∈ nc :: ntl, c.isDigit = true) :
    frameAt (' ' :: ((nc :: ntl) ++ (' ' :: rest))) = some (digitsToNat (nc :: ntl)) := by
  have hws : isWs nc = false :=
    not_ws_of_digdot nc (digit_isDigDot nc (hnd nc (List.mem_cons_self _ _)))
  simp only [frameAt]
  rw [List.dropWhile_cons]
  simp only [show isWs ' ' = true from rfl, if_true]
  rw [List.cons_append, dropWhile_head_false _ _ _ hws, ← List.cons_append,
    takeWhile_block Char.isDigit (nc :: ntl) ' ' rest hnd (by decide)]
  simp [digitsToNat]

lemma numTokAt_eval (bc : Char) (btl rest : List Char) (c : Char)
    (hball : ∀ x ∈ bc :: btl, isDigDot x = true) (hc : isDigDot c = false) :
    numTokAt (' ' :: ((bc :: btl) ++ (c :: rest))) = some (bc :: btl) := by
  have hws : isWs bc = false := not_ws_of_digdot bc (hball bc (List.mem_cons_self _ _))
  simp only [numTokAt]
  rw [List.dropWhile_cons]
  simp only [show isWs ' ' = true from rfl, if_true]
  rw [List.cons_append, dropWhile_head_false _ _ _ hws, ← List.cons_append,
    takeWhile_block isDigDot (bc :: btl) c rest hball hc]
  simp

lemma timeAt_eval (a1 a2 b1 b2 c1 c2 d1 d2 : Char) (rest : List Char)
    (ha1 : a1.isDigit = true) (ha2 : a2.isDigit = true) (hb1 : b1.isDigit = true)
    (hb2 : b2.isDigit = true) (hc1 : c1.isDigit = true) (hc2 : c2.isDigit = true)
    (hd1 : d1.isDigit = true) (hd2 : d2.isDigit = true) :
    timeAt (timeTok a1 a2 b1 b2 c1 c2 d1 d2 ++ rest) =
      some (10 * dv a1 + dv a2, 10 * dv b1 + dv b2, 10 * dv c1 + dv c2,
        10 * dv d1 + dv d2) := by
  simp [timeTok, timeAt, ha1, ha2, hb1, hb2, hc1, hc2, hd1, hd2]

lemma speedAt_eval (sc : Char) (stl : List Char)
    (hball : ∀ x ∈ sc :: stl, isDigDot x = true) :
    speedAt ((sc :: stl) ++ ['x']) = some ((sc :: stl) ++ ['x']) := by
  have hws : isWs sc = false := not_ws_of_digdot sc (hball sc (List.mem_cons_self _ _))
  simp only [speedAt]
  rw [List.cons_append, dropWhile_head_false _ _ _ hws, ← List.cons_append,
    takeWhile_block isDigDot (sc :: stl) 'x' [] hball (by decide)]
  simp only [List.isEmpty_cons, Bool.false_eq_true, if_false]
  rw [List.drop_left]
  rfl

lemma sizeAt_eval (tail : List Char) :
    unitTokAt ['B'] (' ' :: '1' :: '0' :: '2' :: '4' :: 'k' :: 'B' :: ' ' :: tail) =
      some ['1', '0', '2', '4', 'k', 'B'] := rfl

lemma bitrateAt_eval (tail : List Char) :
    unitTokAt bitsUnit
        (' ' :: '1' :: '7' :: '0' :: '.' :: '1' :: 'k' :: 'b' :: 'i' :: 't' :: 's' ::
          '/' :: 's' :: ' ' :: tail) =
      some ['1', '7', '0', '.', '1', 'k', 'b', 'i', 't', 's', '/', 's'] := rfl

lemma scanFps_reaches {α} (f : List Char → Option α) (nds fds : List Char)
    (a1 a2 b1 b2 c1 c2 d1 d2 : Char) (sds : List Char) (x : α)
    (hnd : ∀ c ∈ nds, c.isDigit = true)
    (hf : f ([' '] ++ (fds ++ (shardC1a ++ (sizeKey ++ (shardC1b ++ (timeKey ++
        (timeTok a1 a2 b1 b2 c1 c2 d1 d2 ++ (shardD1a ++ (bitrateKey ++ (shardD1b ++
        (speedKey ++ (sds ++ ['x'])))))))))))) = some x) :
    scanFor fpsKey f (canonLine nds fds a1 a2 b1 b2 c1 c2 d1 d2 sds) = some x := by
  unfold canonLine
  simp only [List.append_assoc]
  rw [scanFor_skip_clear fpsKey f frameKey _ (by decide),
    scanFor_skip_clear fpsKey f [' '] _ (by decide),
    skip_digit_block2 fpsKey 'f' ['p', 's', '='] rfl f nds _ (by decide) hnd,
    scanFor_skip_clear fpsKey f [' '] _ (by decide)]
  exact scanFor_found_atStart fpsKey (by decide) f _ x hf

lemma scanSize_reaches {α} (f : List Char → Option α) (nds fds : List Char)
    (a1 a2 b1 b2 c1 c2 d1 d2 : Char) (sds : List Char) (x : α)
    (hnd : ∀ c ∈ nds, c.isDigit = true) (hfd : ∀ c ∈ fds, isDigDot c = true)
    (hf : f (shardC1b ++ (timeKey ++ (timeTok a1 a2 b1 b2 c1 c2 d1 d2 ++ (shardD1a ++
        (bitrateKey ++ (shardD1b ++ (speedKey ++ (sds ++ ['x'])))))))) = some x) :
    scanFor sizeKey f (canonLine nds fds a1 a2 b1 b2 c1 c2 d1 d2 sds) = some x := by
  unfold canonLine
  simp only [List.append_assoc]
  rw [scanFor_skip_clear sizeKey f frameKey _ (by decide),
    scanFor_skip_clear sizeKey f [' '] _ (by decide),
    skip_digit_block2 sizeKey 's' ['i', 'z', 'e', '='] rfl f nds _ (by decide) hnd,
    scanFor_skip_clear sizeKey f [' '] _ (by decide),
    scanFor_skip_clear sizeKey f fpsKey _ (by decide),
    scanFor_skip_clear sizeKey f [' '] _ (by decide),
    skip_digdot_block2 sizeKey 's' ['i', 'z', 'e', '='] rfl f fds _ (by decide)
      (by decide) hfd,
    scanFor_skip_clear sizeKey f shardC1a _ (by decide)]
  exact scanFor_found_atStart sizeKey (by decide) f _ x hf

lemma scanTime_reaches {α} (f : List Char → Option α) (nds fds : List Char)
    (a1 a2 b1 b2 c1 c2 d1 d2 : Char) (sds : List Char) (x : α)
    (hnd : ∀ c ∈ nds, c.isDigit = true) (hfd : ∀ c ∈ fds, isDigDot c = true)
    (hf : f (timeTok a1 a2 b1 b2 c1 c2 d1 d2 ++ (shardD1a ++ (bitrateKey ++ (shardD1b ++
        (speedKey ++ (sds ++ ['x'])))))) = some x) :
    scanFor timeKey f (canonLine nds fds a1 a2 b1 b2 c1 c2 d1 d2 sds) = some x := by
  unfold canonLine
  simp only [List.append_assoc]
  rw [scanFor_skip_clear timeKey f frameKey _ (by decide),
    scanFor_skip_clear timeKey f [' '] _ (by decide),
    skip_digit_block2 timeKey 't' ['i', 'm', 'e', '='] rfl f nds _ (by decide) hnd,
    scanFor_skip_clear timeKey f [' '] _ (by decide),
    scanFor_skip_clear timeKey f fpsKey _ (by decide),
    scanFor_skip_clear timeKey f [' '] _ (by decide),
    skip_digdot_block2 timeKey 't' ['i', 'm', 'e', '='] rfl f fds _ (by decide)
      (by decide) hfd,
    scanFor_skip_clear timeKey f shardC1a _ (by decide),
    scanFor_skip_clear timeKey f sizeKey _ (by decide),
    scanFor_skip_clear timeKey f shardC1b _ (by decide)]
  exact scanFor_found_atStart timeKey (by decide) f _ x hf

lemma scanBitrate_reaches {α} (f : List Char → Option α) (nds fds : List Char)
    (a1 a2 b1 b2 c1 c2 d1 d2 : Char) (sds : List Char) (x : α)
    (hnd : ∀ c ∈ nds, c.isDigit = true) (hfd : ∀ c ∈ fds, isDigDot c = true)
    (ha1 : a1.isDigit = true) (ha2 : a2.isDigit = true) (hb1 : b1.isDigit = true)
    (hb2 : b2.isDigit = true) (hc1 : c1.isDigit = true) (hc2 : c2.isDigit = true)
    (hd1 : d1.isDigit = true) (hd2 : d2.isDigit = true)
    (hf : f (shardD1b ++ (speedKey ++ (sds ++ ['x']))) = some x) :
    scanFor bitrateKey f (canonLine nds fds a1 a2 b1 b2 c1 c2 d1 d2 sds) = some x := by
  unfold canonLine
  simp only [List.append_assoc]
  rw [scanFor_skip_clear bitrateKey f frameKey _ (by decide),
    scanFor_skip_clear bitrateKey f [' '] _ (by decide),
    skip_digit_block2 bitrateKey 'b' ['i', 't', 'r', 'a', 't', 'e', '='] rfl f nds _
      (by decide) hnd,
    scanFor_skip_clear bitrateKey f [' '] _ (by decide),
    scanFor_skip_clear bitrateKey f fpsKey _ (by decide),
    scanFor_skip_clear bitrateKey f [' '] _ (by decide),
    skip_digdot_block2 bitrateKey 'b' ['i', 't', 'r', 'a', 't', 'e', '='] rfl f fds _
      (by decide) (by decide) hfd,
    scanFor_skip_clear bitrateKey f shardC1a _ (by decide),
    scanFor_skip_clear bitrateKey f sizeKey _ (by decide),
    scanFor_skip_clear bitrateKey f shardC1b _ (by decide),
    scanFor_skip_clear bitrateKey f timeKey _ (by decide),
    skip_timeTok2 bitrateKey 'b' ['i', 't', 'r', 'a', 't', 'e', '='] rfl f
      a1 a2 b1 b2 c1 c2 d1 d2 _ (by decide) (by decide) (by decide)
      ha1 ha2 hb1 hb2 hc1 hc2 hd1 hd2,
    scanFor_skip_clear bitrateKey f shardD1a _ (by decide)]
  exact scanFor_found_atStart bitrateKey (by decide) f _ x hf

lemma scanSpeed_reaches {α} (f : List Char → Option α) (nds fds : List Char)
    (a1 a2 b1 b2 c1 c2 d1 d2 : Char) (sds : List Char) (x : α)
    (hnd : ∀ c ∈ nds, c.isDigit = true) (hfd : ∀ c ∈ fds, isDigDot c = true)
    (ha1 : a1.isDigit = true) (ha2 : a2.isDigit = true) (hb1 : b1.isDigit = true)
    (hb2 : b2.isDigit = true) (hc1 : c1.isDigit = true) (hc2 : c2.isDigit = true)
    (hd1 : d1.isDigit = true) (hd2 : d2.isDigit = true)
    (hf : f (sds ++ ['x']) = some x) :
    scanFor speedKey f (canonLine nds fds a1 a2 b1 b2 c1 c2 d1 d2 sds) = some x := by
  unfold canonLine
  simp only [List.append_assoc]
  rw [scanFor_skip_clear speedKey f frameKey _ (by decide),
    scanFor_skip_clear speedKey f [' '] _ (by decide),
    skip_digit_block2 speedKey 's' ['p', 'e', 'e', 'd', '='] rfl f nds _ (by decide) hnd,
    scanFor_skip_clear speedKey f [' '] _ (by decide),
    scanFor_skip_clear speedKey f fpsKey _ (by decide),
    scanFor_skip_clear speedKey f [' '] _ (by decide),
    skip_digdot_block2 speedKey 's' ['p', 'e', 'e', 'd', '='] rfl f fds _ (by decide)
      (by decide) hfd,
    scanFor_skip_clear speedKey f shardC1a _ (by decide),
    scanFor_skip_clear speedKey f sizeKey _ (by decide),
    scanFor_skip_clear speedKey f shardC1b _ (by decide),
    scanFor_skip_clear speedKey f timeKey _ (by decide),
    skip_timeTok2 speedKey 's' ['p', 'e', 'e', 'd', '='] rfl f
      a1 a2 b1 b2 c1 c2 d1 d2 _ (by decide) (by decide) (by decide)
      ha1 ha2 hb1 hb2 hc1 hc2 hd1 hd2,
    scanFor_skip_clear speedKey f shardD1a _ (by decide),
    scanFor_skip_clear speedKey f bitrateKey _ (by decide),
    scanFor_skip_clear speedKey f shardD1b _ (by decide)]
  exact scanFor_found_atStart speedKey (by decide) f _ x hf

lemma scanFrame_canon (nc : Char) (ntl fds : List Char)
    (a1 a2 b1 b2 c1 c2 d1 d2 : Char) (sds : List Char)
    (hnd : ∀ c ∈ nc :: ntl, c.isDigit = true) :
    scanFrame (canonLine (nc :: ntl) fds a1 a2 b1 b2 c1 c2 d1 d2 sds) =
      some (digitsToNat (nc :: ntl)) := by
  unfold scanFrame canonLine
  simp only [List.append_assoc]
  exact scanFor_found_atStart frameKey (by decide) frameAt _ _ (frameAt_eval nc ntl _ hnd)

lemma scanFps_canon (nds : List Char) (fc : Char) (ftl : List Char)
    (a1 a2 b1 b2 c1 c2 d1 d2 : Char) (sds : List Char)
    (hnd : ∀ c ∈ nds, c.isDigit = true) (hfd : ∀ c ∈ fc :: ftl, isDigDot c = true) :
    scanFps (canonLine nds (fc :: ftl) a1 a2 b1 b2 c1 c2 d1 d2 sds) = some (fc :: ftl) := by
  unfold scanFps
  exact scanFps_reaches numTokAt nds (fc :: ftl) a1 a2 b1 b2 c1 c2 d1 d2 sds (fc :: ftl)
    hnd (numTokAt_eval fc ftl _ ' ' hfd (by decide))

lemma scanSize_canon (nds fds : List Char) (a1 a2 b1 b2 c1 c2 d1 d2 : Char)
    (sds : List Char) (hnd : ∀ c ∈ nds, c.isDigit = true)
    (hfd : ∀ c ∈ fds, isDigDot c = true) :
    scanSize (canonLine nds fds a1 a2 b1 b2 c1 c2 d1 d2 sds) =
      some ['1', '0', '2', '4', 'k', 'B'] := by
  unfold scanSize
  exact scanSize_reaches (unitTokAt ['B']) nds fds a1 a2 b1 b2 c1 c2 d1 d2 sds
    ['1', '0', '2', '4', 'k', 'B'] hnd hfd (sizeAt_eval _)

lemma scanTime_canon (nds fds : List Char) (a1 a2 b1 b2 c1 c2 d1 d2 : Char)
    (sds : List Char) (hnd : ∀ c ∈ nds, c.isDigit = true)
    (hfd : ∀ c ∈ fds, isDigDot c = true)
    (ha1 : a1.isDigit = true) (ha2 : a2.isDigit = true) (hb1 : b1.isDigit = true)
    (hb2 : b2.isDigit = true) (hc1 : c1.isDigit = true) (hc2 : c2.isDigit = true)
    (hd1 : d1.isDigit = true) (hd2 : d2.isDigit = true) :
    scanTime (canonLine nds fds a1 a2 b1 b2 c1 c2 d1 d2 sds) =
      some (10 * dv a1 + dv a2, 10 * dv b1 + dv b2, 10 * dv c1 + dv c2,
        10 * dv d1 + dv d2) := by
  unfold scanTime
  exact scanTime_reaches timeAt nds fds a1 a2 b1 b2 c1 c2 d1 d2 sds _ hnd hfd
    (timeAt_eval a1 a2 b1 b2 c1 c2 d1 d2 _ ha1 ha2 hb1 hb2 hc1 hc2 hd1 hd2)

lemma scanBitrate_canon (nds fds : List Char) (a1 a2 b1 b2 c1 c2 d1 d2 : Char)
    (sds : List Char) (hnd : ∀ c ∈ nds, c.isDigit = true)
    (hfd : ∀ c ∈ fds, isDigDot c = true)
    (ha1 : a1.isDigit = true) (ha2 : a2.isDigit = true) (hb1 : b1.isDigit = true)
    (hb2 : b2.isDigit = true) (hc1 : c1.isDigit = true) (hc2 : c2.isDigit = true)
    (hd1 : d1.isDigit = true) (hd2 : d2.isDigit = true) :
    scanBitrate (canonLine nds fds a1 a2 b1 b2 c1 c2 d1 d2 sds) =
      some ['1', '7', '0', '.', '1', 'k', 'b', 'i', 't', 's', '/', 's'] := by
  unfold scanBitrate
  exact scanBitrate_reaches (unitTokAt bitsUnit) nds fds a1 a2 b1 b2 c1 c2 d1 d2 sds
    _ hnd hfd ha1 ha2 hb1 hb2 hc1 hc2 hd1 hd2 (bitrateAt_eval _)

lemma scanSpeed_canon (nds fds : List Char) (a1 a2 b1 b2 c1 c2 d1 d2 : Char)
    (sc : Char) (stl : List Char) (hnd : ∀ c ∈ nds, c.isDigit = true)
    (hfd : ∀ c ∈ fds, isDigDot c = true) (hsd : ∀ c ∈ sc :: stl, isDigDot c = true)
    (ha1 : a1.isDigit = true) (ha2 : a2.isDigit = true) (hb1 : b1.isDigit = true)
    (hb2 : b2.isDigit = true) (hc1 : c1.isDigit = true) (hc2 : c2.isDigit = true)
    (hd1 : d1.isDigit = true) (hd2 : d2.isDigit = true) :
    scanSpeed (canonLine nds fds a1 a2 b1 b2 c1 c2 d1 d2 (sc :: stl)) =
      some ((sc :: stl) ++ ['x']) := by
  unfold scanSpeed
  exact scanSpeed_reaches speedAt nds fds a1 a2 b1 b2 c1 c2 d1 d2 (sc :: stl)
    _ hnd hfd ha1 ha2 hb1 hb2 hc1 hc2 hd1 hd2 (speedAt_eval sc stl hsd)

lemma canonLine_contains_frame (nds fds : List Char) (a1 a2 b1 b2 c1 c2 d1 d2 : Char)
    (sds : List Char) :
    strContainsL frameKey (canonLine nds fds a1 a2 b1 b2 c1 c2 d1 d2 sds) = true := by
  unfold strContainsL canonLine
  simp only [List.append_assoc]
  rw [scanFor_found_atStart frameKey (by decide) (fun _ => some ()) _ () rfl]
  rfl

lemma canonLine_contains_time (nds fds : List Char) (a1 a2 b1 b2 c1 c2 d1 d2 : Char)
    (sds : List Char) (hnd : ∀ c ∈ nds, c.isDigit = true)
    (hfd : ∀ c ∈ fds, isDigDot c = true) :
    strContainsL timeKey (canonLine nds fds a1 a2 b1 b2 c1 c2 d1 d2 sds) = true := by
  unfold strContainsL
  rw [scanTime_reaches (fun _ => some ()) nds fds a1 a2 b1 b2 c1 c2 d1 d2 sds ()
    hnd hfd rfl]
  rfl

lemma parseProgress_canon (nc : Char) (ntl : List Char) (fc : Char) (ftl : List Char)
    (a1 a2 b1 b2 c1 c2 d1 d2 : Char) (sc : Char) (stl : List Char)
    (p : ConversionProgress) (duration : Option ℚ) (fv : ℚ)
    (hnd : ∀ c ∈ nc :: ntl, c.isDigit = true)
    (hfd : ∀ c ∈ fc :: ftl, isDigDot c = true)
    (hsd : ∀ c ∈ sc :: stl, isDigDot c = true)
    (ha1 : a1.isDigit = true) (ha2 : a2.isDigit = true) (hb1 : b1.isDigit = true)
    (hb2 : b2.isDigit = true) (hc1 : c1.isDigit = true) (hc2 : c2.isDigit = true)
    (hd1 : d1.isDigit = true) (hd2 : d2.isDigit = true)
    (hfv : pyFloat (fc :: ftl) = some fv) :
    parseProgress (canonLine (nc :: ntl) (fc :: ftl) a1 a2 b1 b2 c1 c2 d1 d2 (sc :: stl))
        p duration =
      { frame := digitsToNat (nc :: ntl), fps := fv,
        bitrate := ⟨['1', '7', '0', '.', '1', 'k', 'b', 'i', 't', 's', '/', 's']⟩,
        size := ⟨['1', '0', '2', '4', 'k', 'B']⟩,
        time := formatTime (canonTotal a1 a2 b1 b2 c1 c2 d1 d2),
        speed := ⟨(sc :: stl) ++ ['x']⟩,
        percentage := pctUpdate duration (canonTotal a1 a2 b1 b2 c1 c2 d1 d2)
          p.percentage } := by
  have hcf := canonLine_contains_frame (nc :: ntl) (fc :: ftl) a1 a2 b1 b2 c1 c2 d1 d2
    (sc :: stl)
  have hct := canonLine_contains_time (nc :: ntl) (fc :: ftl) a1 a2 b1 b2 c1 c2 d1 d2
    (sc :: stl) hnd hfd
  have hframe := scanFrame_canon nc ntl (fc :: ftl) a1 a2 b1 b2 c1 c2 d1 d2 (sc :: stl) hnd
  have hfps := scanFps_canon (nc :: ntl) fc ftl a1 a2 b1 b2 c1 c2 d1 d2 (sc :: stl) hnd hfd
  have hsize := scanSize_canon (nc :: ntl) (fc :: ftl) a1 a2 b1 b2 c1 c2 d1 d2 (sc :: stl)
    hnd hfd
  have htime := scanTime_canon (nc :: ntl) (fc :: ftl) a1 a2 b1 b2 c1 c2 d1 d2 (sc :: stl)
    hnd hfd ha1 ha2 hb1 hb2 hc1 hc2 hd1 hd2
  have hbit := scanBitrate_canon (nc :: ntl) (fc :: ftl) a1 a2 b1 b2 c1 c2 d1 d2 (sc :: stl)
    hnd hfd ha1 ha2 hb1 hb2 hc1 hc2 hd1 hd2
  have hspeed := scanSpeed_canon (nc :: ntl) (fc :: ftl) a1 a2 b1 b2 c1 c2 d1 d2 sc stl
    hnd hfd hsd ha1 ha2 hb1 hb2 hc1 hc2 hd1 hd2
  unfold parseProgress
  rw [hcf, hct]
  have hguard : ((true : Bool) && true) = true := rfl
  rw [hguard, if_pos rfl]
  rw [hframe]
  dsimp only
  rw [hfps]
  dsimp only
  rw [hfv]
  dsimp only
  unfold parseAfterFps
  rw [hbit]
  dsimp only
  rw [hsize]
  dsimp only
  rw [htime]
  dsimp only
  rw [hspeed]
  dsimp only
  rfl

/-- Counterexample to C6 as stated: for the documented progress line with
`speed=1.0x`, the parser stores the matched token including the trailing
`x` marker — `snapshot.speed` becomes `"1.0x"`, not the bare decimal
`"1.0"` — while frame and fps are extracted as claimed. -/
theorem C6_counterexample :
    (parseProgress
        (canonLine ['1', '0'] ['2', '5', '.', '0'] '0' '0' '0' '0' '4' '9' '3' '6'
          ['1', '.', '0'])
        ⟨0, 0, "", "", "", "", 0⟩ none).frame = 10 ∧
    (parseProgress
        (canonLine ['1', '0'] ['2', '5', '.', '0'] '0' '0' '0' '0' '4' '9' '3' '6'
          ['1', '.', '0'])
        ⟨0, 0, "", "", "", "", 0⟩ none).fps = 25 ∧
    (parseProgress
        (canonLine ['1', '0'] ['2', '5', '.', '0'] '0' '0' '0' '0' '4' '9' '3' '6'
          ['1', '.', '0'])
        ⟨0, 0, "", "", "", "", 0⟩ none).speed = "1.0x" ∧
    (parseProgress
        (canonLine ['1', '0'] ['2', '5', '.', '0'] '0' '0' '0' '0' '4' '9' '3' '6'
          ['1', '.', '0'])
        ⟨0, 0, "", "", "", "", 0⟩ none).speed ≠ "1.0" := by
  have hfv : pyFloat ['2', '5', '.', '0'] = some 25 := by
    have h0 : pyFloat ['2', '5', '.', '0'] =
        some (((25 : ℕ) : ℚ) + ((0 : ℕ) : ℚ) / (10 : ℚ) ^ 1) := rfl
    rw [h0]
    norm_num
  have h := parseProgress_canon '1' ['0'] '2' ['5', '.', '0'] '0' '0' '0' '0' '4' '9' '3' '6'
    '1' ['.', '0'] ⟨0, 0, "", "", "", "", 0⟩ none 25
    (by decide) (by decide) (by decide) (by decide) (by decide) (by decide) (by decide)
    (by decide) (by decide) (by decide) (by decide) hfv
  refine ⟨?_, ?_, ?_, ?_⟩
  · rw [h]
    decide
  · rw [h]
  · rw [h]
    decide
  · rw [h]
    decide

/-- Claim C6 (amended): for every line of the canonical shape
`frame=<n> fps=<f> ... time=HH:MM:SS.cc ... speed=<s>x` the parser sets
`frame` to the number denoted by the frame digits, `fps` to the exact
rational value of the fps token (hence within ±0.05 of it), and `speed`
to the matched token `s` followed by the `x` marker; and every line
missing the `frame=` marker or the `time=` marker leaves the snapshot
entirely unchanged. -/
theorem C6_progress_extraction (nc : Char) (ntl : List Char) (fc : Char) (ftl : List Char)
    (a1 a2 b1 b2 c1 c2 d1 d2 : Char) (sc : Char) (stl : List Char)
    (p : ConversionProgress) (duration : Option ℚ) (fv : ℚ)
    (hnd : ∀ c ∈ nc :: ntl, c.isDigit = true)
    (hfd : ∀ c ∈ fc :: ftl, isDigDot c = true)
    (hsd : ∀ c ∈ sc :: stl, isDigDot c = true)
    (ha1 : a1.isDigit = true) (ha2 : a2.isDigit = true) (hb1 : b1.isDigit = true)
    (hb2 : b2.isDigit = true) (hc1 : c1.isDigit = true) (hc2 : c2.isDigit = true)
    (hd1 : d1.isDigit = true) (hd2 : d2.isDigit = true)
    (hfv : pyFloat (fc :: ftl) = some fv) :
    ((parseProgress
        (canonLine (nc :: ntl) (fc :: ftl) a1 a2 b1 b2 c1 c2 d1 d2 (sc :: stl))
        p duration).frame = digitsToNat (nc :: ntl) ∧
     (parseProgress
        (canonLine (nc :: ntl) (fc :: ftl) a1 a2 b1 b2 c1 c2 d1 d2 (sc :: stl))
        p duration).fps = fv ∧
     (parseProgress
        (canonLine (nc :: ntl) (fc :: ftl) a1 a2 b1 b2 c1 c2 d1 d2 (sc :: stl))
        p duration).speed = ⟨(sc :: stl) ++ ['x']⟩) ∧
    (∀ (line : List Char) (p2 : ConversionProgress) (dur2 : Option ℚ),
      strContainsL frameKey line = false ∨ strContainsL timeKey line = false →
      parseProgress line p2 dur2 = p2) := by
  have h := parseProgress_canon nc ntl fc ftl a1 a2 b1 b2 c1 c2 d1 d2 sc stl p duration fv
    hnd hfd hsd ha1 ha2 hb1 hb2 hc1 hc2 hd1 hd2 hfv
  constructor
  · exact ⟨by rw [h], by rw [h], by rw [h]⟩
  · intro line p2 dur2 hmiss
    unfold parseProgress
    rcases hmiss with hm | hm <;> rw [hm] <;> simp

/-- Witness for C6 at a concrete canonical line. -/
theorem C6_progress_extraction_witness :
    (parseProgress
        (canonLine ['7'] ['3', '0', '.', '5'] '0' '1' '2' '3' '4' '5' '6' '7' ['2'])
        ⟨0, 0, "", "", "", "", 0⟩ none).frame = digitsToNat ['7'] ∧
    (parseProgress
        (canonLine ['7'] ['3', '0', '.', '5'] '0' '1' '2' '3' '4' '5' '6' '7' ['2'])
        ⟨0, 0, "", "", "", "", 0⟩ none).fps = 30 + 5 / 10 ∧
    (parseProgress
        (canonLine ['7'] ['3', '0', '.', '5'] '0' '1' '2' '3' '4' '5' '6' '7' ['2'])
        ⟨0, 0, "", "", "", "", 0⟩ none).speed = ⟨['2'] ++ ['x']⟩ :=
  (C6_progress_extraction '7' [] '3' ['0', '.', '5'] '0' '1' '2' '3' '4' '5' '6' '7' '2' []
    ⟨0, 0, "", "", "", "", 0⟩ none (30 + 5 / 10)
    (by decide) (by decide) (by decide) (by decide) (by decide) (by decide) (by decide)
    (by decide) (by decide) (by decide) (by decide)
    (by
      have h0 : pyFloat ['3', '0', '.', '5'] =
          some (((30 : ℕ) : ℚ) + ((5 : ℕ) : ℚ) / (10 : ℚ) ^ 1) := rfl
      rw [h0]
      norm_num)).1

/-- Claim C7: on a parsed progress line carrying a time marker, a known
positive total duration yields
`percentage = min (elapsed / duration * 100) 100` — equal to 100 when the
elapsed time reaches the duration and never above 100 — while an unknown
or non-positive duration leaves the percentage at its previous value. -/
theorem C7_percentage_clamped (nc : Char) (ntl : List Char) (fc : Char) (ftl : List Char)
    (a1 a2 b1 b2 c1 c2 d1 d2 : Char) (sc : Char) (stl : List Char)
    (p : ConversionProgress) (duration : Option ℚ) (fv : ℚ)
    (hnd : ∀ c ∈ nc :: ntl, c.isDigit = true)
    (hfd : ∀ c ∈ fc :: ftl, isDigDot c = true)
    (hsd : ∀ c ∈ sc :: stl, isDigDot c = true)
    (ha1 : a1.isDigit = true) (ha2 : a2.isDigit = true) (hb1 : b1.isDigit = true)
    (hb2 : b2.isDigit = true) (hc1 : c1.isDigit = true) (hc2 : c2.isDigit = true)
    (hd1 : d1.isDigit = true) (hd2 : d2.isDigit = true)
    (hfv : pyFloat (fc :: ftl) = some fv) :
    (∀ d : ℚ, duration = some d → 0 < d →
      (parseProgress
          (canonLine (nc :: ntl) (fc :: ftl) a1 a2 b1 b2 c1 c2 d1 d2 (sc :: stl))
          p duration).percentage =
        min (canonTotal a1 a2 b1 b2 c1 c2 d1 d2 / d * 100) 100 ∧
      (d ≤ canonTotal a1 a2 b1 b2 c1 c2 d1 d2 →
        (parseProgress
            (canonLine (nc :: ntl) (fc :: ftl) a1 a2 b1 b2 c1 c2 d1 d2 (sc :: stl))
            p duration).percentage = 100) ∧
      (parseProgress
          (canonLine (nc :: ntl) (fc :: ftl) a1 a2 b1 b2 c1 c2 d1 d2 (sc :: stl))
          p duration).percentage ≤ 100) ∧
    (duration = none →
      (parseProgress
          (canonLine (nc :: ntl) (fc :: ftl) a1 a2 b1 b2 c1 c2 d1 d2 (sc :: stl))
          p duration).percentage = p.percentage) ∧
    (∀ d : ℚ, duration = some d → d ≤ 0 →
      (parseProgress
          (canonLine (nc :: ntl) (fc :: ftl) a1 a2 b1 b2 c1 c2 d1 d2 (sc :: stl))
          p duration).percentage = p.percentage) := by
  refine ⟨?_, ?_, ?_⟩
  · intro d hdur hdpos
    subst hdur
    have h := parseProgress_canon nc ntl fc ftl a1 a2 b1 b2 c1 c2 d1 d2 sc stl p (some d) fv
      hnd hfd hsd ha1 ha2 hb1 hb2 hc1 hc2 hd1 hd2 hfv
    have hpct : (parseProgress
        (canonLine (nc :: ntl) (fc :: ftl) a1 a2 b1 b2 c1 c2 d1 d2 (sc :: stl))
        p (some d)).percentage =
        min (canonTotal a1 a2 b1 b2 c1 c2 d1 d2 / d * 100) 100 := by
      rw [h]
      show pctUpdate (some d) (canonTotal a1 a2 b1 b2 c1 c2 d1 d2) p.percentage = _
      unfold pctUpdate
      dsimp only
      rw [if_pos hdpos]
    refine ⟨hpct, ?_, ?_⟩
    · intro hge
      rw [hpct]
      have h1 : (1 : ℚ) ≤ canonTotal a1 a2 b1 b2 c1 c2 d1 d2 / d :=
        (one_le_div hdpos).mpr hge
      have h2 : (100 : ℚ) ≤ canonTotal a1 a2 b1 b2 c1 c2 d1 d2 / d * 100 := by linarith
      exact min_eq_right h2
    · rw [hpct]
      exact min_le_right _ _
  · intro hdur
    subst hdur
    have h := parseProgress_canon nc ntl fc ftl a1 a2 b1 b2 c1 c2 d1 d2 sc stl p none fv
      hnd hfd hsd ha1 ha2 hb1 hb2 hc1 hc2 hd1 hd2 hfv
    rw [h]
    rfl
  · intro d hdur hdle
    subst hdur
    have h := parseProgress_canon nc ntl fc ftl a1 a2 b1 b2 c1 c2 d1 d2 sc stl p (some d) fv
      hnd hfd hsd ha1 ha2 hb1 hb2 hc1 hc2 hd1 hd2 hfv
    rw [h]
    show pctUpdate (some d) (canonTotal a1 a2 b1 b2 c1 c2 d1 d2) p.percentage = p.percentage
    unfold pctUpdate
    dsimp only
    rw [if_neg (not_lt.mpr hdle)]

/-- Witness for C7: elapsed 49.36s against a 10s duration clamps to 100. -/
theorem C7_percentage_clamped_witness :
    (parseProgress
        (canonLine ['1', '0'] ['2', '5', '.', '0'] '0' '0' '0' '0' '4' '9' '3' '6'
          ['1', '.', '0'])
        ⟨0, 0, "", "", "", "", 0⟩ (some 10)).percentage = 100 := by
  have hfv : pyFloat ['2', '5', '.', '0'] = some 25 := by
    have h0 : pyFloat ['2', '5', '.', '0'] =
        some (((25 : ℕ) : ℚ) + ((0 : ℕ) : ℚ) / (10 : ℚ) ^ 1) := rfl
    rw [h0]
    norm_num
  have hge : (10 : ℚ) ≤ canonTotal '0' '0' '0' '0' '4' '9' '3' '6' := by
    have h0 : canonTotal '0' '0' '0' '0' '4' '9' '3' '6' =
        ((0 : ℕ) : ℚ) * 3600 + ((0 : ℕ) : ℚ) * 60 + ((49 : ℕ) : ℚ) +
          ((36 : ℕ) : ℚ) / 100 := rfl
    rw [h0]
    norm_num
  exact ((C7_percentage_clamped '1' ['0'] '2' ['5', '.', '0'] '0' '0' '0' '0' '4' '9' '3'
      '6' '1' ['.', '0'] ⟨0, 0, "", "", "", "", 0⟩ (some 10) 25
      (by decide) (by decide) (by decide) (by decide) (by decide) (by decide) (by decide)
      (by decide) (by decide) (by decide) (by decide) hfv).1
    10 rfl (by norm_num)).2.1 hge
